import Mathlib

/-!
Verification of the statement-assembly and type-inference core of the
safety-postgres library.

The Rust sources are embedded shallowly: each Rust builder struct becomes a
Lean structure, each method a Lean function.  Mutating methods that return
`Result<&mut Self, E>` are embedded as functions `State → Args → Option E × State`
returning the error (if any) together with the state after the call, so that
statements about the state on the error path are expressible.  `Vec::join` is
embedded as `rustJoin`.  Placeholders (`$N`) of a rendered SQL string are
recovered by `placeholders`, a scanner that collects every maximal digit run
following a `'$'`.
-/

/-- Model of `Vec::<String>::join(sep)` from the Rust standard library. -/
def rustJoin (sep : String) : List String → String
  | [] => ""
  | [s] => s
  | s :: s' :: rest => s ++ sep ++ rustJoin sep (s' :: rest)

/-- A string is dollar-free when none of its characters is `'$'`.
Identifier fragments of rendered SQL are dollar-free, so every `'$'` of a
statement belongs to a placeholder. -/
def NoDollar (s : String) : Bool := s.data.all (fun c => c ≠ '$')

/-- Scanner collecting the maximal digit runs that follow a `'$'`, in order.
Applied to rendered SQL text it returns the placeholder numbers as digit
strings. -/
def phExtract : List Char → List (List Char)
  | [] => []
  | c :: rest =>
    if c = '$' then
      let ds := rest.takeWhile Char.isDigit
      if ds.isEmpty then phExtract rest
      else ds :: phExtract (rest.dropWhile Char.isDigit)
    else phExtract rest
termination_by l => l.length
decreasing_by
  · simp
  · exact Nat.lt_succ_of_le (List.dropWhile_sublist _).length_le
  · simp

/-- The placeholder number strings of a rendered SQL string, in text order. -/
def placeholders (s : String) : List String := (phExtract s.data).map List.asString

/-- Head of the char list is not a digit (vacuously true for the empty list). -/
def HeadNotDigit (l : List Char) : Prop := ∀ c, l.head? = some c → c.isDigit = false

/-- Model of `char::is_alphanumeric` from Rust.  On the ASCII range (to which
all theorems below restrict their inputs) this is exactly a letter-or-digit
test; Rust's version additionally accepts non-ASCII Unicode alphanumerics. -/
def rust_is_alphanumeric (c : Char) : Bool := c.isAlpha || c.isDigit

/-- Model of `validate_alphanumeric_name` from `src/postgres/validators.rs`. -/
def validate_alphanumeric_name (s : String) (allow_chars : String) : Bool :=
  s.data.all (fun c => rust_is_alphanumeric c || allow_chars.data.contains c)

/-- Model of `validate_string` from `src/postgres/validators.rs`; the
`ErrorGenerator` argument becomes a plain function from the message to the
error type. -/
def validate_string {E : Type} (str : String) (param_name : String)
    (error_generator : String → E) : Except E Unit :=
  if !validate_alphanumeric_name str "_" then
    Except.error (error_generator
      ("'" ++ str ++ "' has invalid characters. '" ++ param_name ++
       "' allows alphabets, numbers and under bar only."))
  else
    Except.ok ()

namespace Access

/-- `ComparisonOperator` from `src/access/conditions.rs` (sic: `Grater`). -/
inductive ComparisonOperator
  | Equal
  | Lower
  | Grater
  | LowerEq
  | GraterEq
deriving DecidableEq

/-- `IsInJoinedTable` from `src/access/conditions.rs`. -/
inductive IsInJoinedTable
  | Yes (schema_name : String) (table_name : String)
  | No
deriving DecidableEq

/-- `LogicalOperator` from `src/access/conditions.rs`. -/
inductive LogicalOperator
  | FirstCondition
  | And
  | Or
deriving DecidableEq

/-- `Condition` from `src/access/conditions.rs`. -/
structure Condition where
  is_joined_table_condition : IsInJoinedTable
  key : String
  operator : ComparisonOperator
  value : String
deriving DecidableEq

/-- `Conditions` from `src/access/conditions.rs`. -/
structure Conditions where
  logics : List LogicalOperator
  conditions : List Condition
deriving DecidableEq

/-- `ConditionError` from the access error module (`ConditionErrorGenerator`
wraps a message into `InputInvalidError`). -/
inductive ConditionError
  | InputInvalidError (msg : String)
deriving DecidableEq

/-- `Conditions::new`. -/
def Conditions.new : Conditions := { logics := [], conditions := [] }

/-- `Conditions::is_empty`. -/
def Conditions.is_empty (self : Conditions) : Bool := self.conditions.isEmpty

/-- `Conditions::add_condition` from `src/access/conditions.rs`, lines
225-265.  The Rust method mutates `self` and returns `Result<&mut Self, _>`;
the embedding returns the error (if any) together with the state after the
call. -/
def Conditions.add_condition (self : Conditions) (column : String) (value : String)
    (comparison : ComparisonOperator) (condition_chain : LogicalOperator)
    (is_joined_table_condition : IsInJoinedTable) :
    Option ConditionError × Conditions :=
  match validate_string column "column" ConditionError.InputInvalidError with
  | Except.error e => (some e, self)
  | Except.ok _ =>
    if condition_chain = LogicalOperator.FirstCondition ∧ self.conditions.isEmpty = false then
      (some (ConditionError.InputInvalidError
        "Already condition exists. 'FirstCondition' can be used only specifying the first condition."),
       self)
    else
      let validated_condition_chain :=
        if condition_chain ≠ LogicalOperator.FirstCondition ∧ self.conditions.isEmpty = true
        then LogicalOperator.FirstCondition
        else condition_chain
      let pushed : Conditions :=
        { logics := self.logics ++ [validated_condition_chain],
          conditions := self.conditions ++
            [{ is_joined_table_condition := is_joined_table_condition,
               key := column, operator := comparison, value := value }] }
      match is_joined_table_condition with
      | IsInJoinedTable.Yes schema_name table_name =>
        if schema_name.isEmpty = false ∧ table_name.isEmpty = true then
          (some (ConditionError.InputInvalidError
            "`table_name` must be specified when `schema_name` name is specified"),
           self)
        else
          (none, pushed)
      | IsInJoinedTable.No => (none, pushed)

/-- `Condition::generate_statement_text` (the private per-condition renderer)
from `src/access/conditions.rs`, lines 348-375. -/
def Condition.generate_statement_text (self : Condition) : String :=
  let table_name :=
    match self.is_joined_table_condition with
    | IsInJoinedTable.Yes schema_name table_name =>
      if schema_name.isEmpty && table_name.isEmpty then
        self.key
      else if schema_name.isEmpty then
        table_name ++ "." ++ self.key
      else
        schema_name ++ "." ++ table_name ++ "." ++ self.key
    | IsInJoinedTable.No => self.key
  let operator :=
    match self.operator with
    | ComparisonOperator.Equal => "="
    | ComparisonOperator.Lower => "<"
    | ComparisonOperator.LowerEq => "<="
    | ComparisonOperator.Grater => ">"
    | ComparisonOperator.GraterEq => ">="
  table_name ++ " " ++ operator

/-- Loop body of `Conditions::generate_statement_text` (lines 300-318): the
pieces pushed for each `(condition, logic)` pair; `k` is `index + start_index + 1`
of the Rust code, threaded instead of `enumerate`. -/
def condLoop : List (Condition × LogicalOperator) → Nat → List String
  | [], _ => []
  | (condition, logic) :: rest, k =>
    (match logic with
     | LogicalOperator.FirstCondition => []
     | LogicalOperator.And => ["AND"]
     | LogicalOperator.Or => ["OR"]) ++
    (condition.generate_statement_text ++ " $" ++ Nat.repr k) :: condLoop rest (k + 1)

/-- `Conditions::generate_statement_text` from `src/access/conditions.rs`,
lines 300-318: `"WHERE"` is pushed on the first iteration, so it is prepended
exactly when the zip of conditions and logics is non-empty. -/
def Conditions.generate_statement_text (self : Conditions) (start_index : Nat) : String :=
  match self.conditions.zip self.logics with
  | [] => rustJoin " " []
  | pair :: rest => rustJoin " " ("WHERE" :: condLoop (pair :: rest) (start_index + 1))

/-- `Conditions::get_flat_values` from `src/access/conditions.rs`, lines 342-345. -/
def Conditions.get_flat_values (self : Conditions) : List String :=
  self.conditions.map (fun condition => condition.value)

/-- All identifier fragments of a condition are dollar-free (column name and,
for a joined-table condition, schema and table names). -/
def Condition.clean (self : Condition) : Bool :=
  NoDollar self.key &&
    match self.is_joined_table_condition with
    | IsInJoinedTable.Yes schema_name table_name => NoDollar schema_name && NoDollar table_name
    | IsInJoinedTable.No => true

end Access

namespace SqlBase

/-- `QueryColumnError` from the postgres error module. -/
inductive QueryColumnError
  | InputInvalidError (msg : String)
  | InputInconsistentError (msg : String)
deriving DecidableEq

/-- `UpdateSetError` from the postgres error module. -/
inductive UpdateSetError
  | InputInvalidError (msg : String)
deriving DecidableEq

/-- `InsertValueError` from the postgres error module. -/
inductive InsertValueError
  | InputInvalidError (msg : String)
  | InputInconsistentError (msg : String)
deriving DecidableEq

/-- `QueryColumn` from `src/postgres/sql_base.rs`. -/
structure QueryColumn where
  schema_name : String
  table_name : String
  column : String
deriving DecidableEq

/-- `QueryColumns` from `src/postgres/sql_base.rs`. -/
structure QueryColumns where
  all_columns : Bool
  columns : List QueryColumn
deriving DecidableEq

/-- `QueryColumns::new`. -/
def QueryColumns.new (all_columns : Bool) : QueryColumns :=
  { all_columns := all_columns, columns := [] }

/-- `QueryColumns::add_column` from `src/postgres/sql_base.rs`, lines 37-54,
embedded as error-and-post-state. -/
def QueryColumns.add_column (self : QueryColumns)
    (schema_name : String) (table_name : String) (column : String) :
    Option QueryColumnError × QueryColumns :=
  if self.all_columns then
    (some (QueryColumnError.InputInconsistentError
      "'all_columns' flag is true so all columns will queried so you can't set column. Please check your input."),
     self)
  else
    match validate_string schema_name "schema_name" QueryColumnError.InputInvalidError with
    | Except.error e => (some e, self)
    | Except.ok _ =>
      match validate_string table_name "table_name" QueryColumnError.InputInvalidError with
      | Except.error e => (some e, self)
      | Except.ok _ =>
        match validate_string column "column_name" QueryColumnError.InputInvalidError with
        | Except.error e => (some e, self)
        | Except.ok _ =>
          (none,
           { self with columns := self.columns ++
              [{ schema_name := schema_name, table_name := table_name, column := column }] })

/-- One column of the SELECT projection: the non-empty parts of
`schema.table.column`, joined by dots (loop body of
`QueryColumns::build_sql`). -/
def QueryColumn.render (q : QueryColumn) : String :=
  rustJoin "."
    ((if q.schema_name.isEmpty then [] else [q.schema_name]) ++
     (if q.table_name.isEmpty then [] else [q.table_name]) ++ [q.column])

/-- `QueryColumns::build_sql` from `src/postgres/sql_base.rs`, lines 57-82. -/
def QueryColumns.build_sql (self : QueryColumns) (table_name : String) : String :=
  rustJoin " "
    ["SELECT",
     if self.all_columns then "*" else rustJoin ", " (self.columns.map QueryColumn.render),
     "FROM " ++ table_name]

/-- `UpdateSet` from `src/postgres/sql_base.rs`. -/
structure UpdateSet where
  column : String
  value : String
deriving DecidableEq

/-- `UpdateSets` from `src/postgres/sql_base.rs`. -/
structure UpdateSets where
  update_sets : List UpdateSet
deriving DecidableEq

/-- `UpdateSets::new`. -/
def UpdateSets.new : UpdateSets := { update_sets := [] }

/-- `UpdateSets::add_set` from `src/postgres/sql_base.rs`, lines 102-112. -/
def UpdateSets.add_set (self : UpdateSets) (column : String) (value : String) :
    Option UpdateSetError × UpdateSets :=
  match validate_string column "column" UpdateSetError.InputInvalidError with
  | Except.error e => (some e, self)
  | Except.ok _ =>
    (none, { update_sets := self.update_sets ++ [{ column := column, value := value }] })

/-- `UpdateSets::get_flat_values`. -/
def UpdateSets.get_flat_values (self : UpdateSets) : List String :=
  self.update_sets.map (fun update_set => update_set.value)

/-- `UpdateSets::get_num_values`. -/
def UpdateSets.get_num_values (self : UpdateSets) : Nat := self.update_sets.length

/-- Loop body of `UpdateSets::build_sql` (lines 127-142): the `SET` fragments
with `k` the 1-based enumeration index. -/
def setLoop : List UpdateSet → Nat → List String
  | [], _ => []
  | update_set :: rest, k =>
    (update_set.column ++ " = $" ++ Nat.repr k) :: setLoop rest (k + 1)

/-- `UpdateSets::build_sql` from `src/postgres/sql_base.rs`, lines 127-142. -/
def UpdateSets.build_sql (self : UpdateSets) (table_name : String) : String :=
  rustJoin " "
    ["UPDATE", table_name, "SET " ++ rustJoin ", " (setLoop self.update_sets 1)]

/-- `InsertRecord` from `src/postgres/sql_base.rs`. -/
structure InsertRecord where
  values : List String
deriving DecidableEq

/-- `InsertRecords` from `src/postgres/sql_base.rs`. -/
structure InsertRecords where
  keys : List String
  insert_records : List InsertRecord
deriving DecidableEq

/-- `InsertRecords::new`. -/
def InsertRecords.new (columns : List String) : InsertRecords :=
  { keys := columns, insert_records := [] }

/-- The `collect::<Result<_, _>>` over `validate_string` applied to every key
in `InsertRecords::add_value`: the first validation error, if any. -/
def validateKeys : List String → Option InsertValueError
  | [] => none
  | key :: rest =>
    match validate_string key "columns" InsertValueError.InputInvalidError with
    | Except.error e => some e
    | Except.ok _ => validateKeys rest

/-- `InsertRecords::add_value` from `src/postgres/sql_base.rs`, lines 166-179. -/
def InsertRecords.add_value (self : InsertRecords) (values : List String) :
    Option InsertValueError × InsertRecords :=
  match validateKeys self.keys with
  | some e => (some e, self)
  | none =>
    if values.length ≠ self.keys.length then
      (some (InsertValueError.InputInconsistentError
        "'values' should match with the 'columns' number. Please input data."),
       self)
    else
      (none, { self with insert_records := self.insert_records ++ [{ values := values }] })

/-- `InsertRecords::get_flat_values`: the records' values flattened in order. -/
def InsertRecords.get_flat_values (self : InsertRecords) : List String :=
  self.insert_records.flatMap (fun record => record.values)

/-- Match arm of the placeholder loop in `InsertRecords::build_sql`
(lines 190-207): piece for `placeholder_index` given `keys.len()`. -/
def insertPlaceholderPiece (keys_len : Nat) (placeholder_index : Nat) : String :=
  if placeholder_index % keys_len = 0 then
    "$" ++ Nat.repr placeholder_index ++ ")"
  else if placeholder_index % keys_len = 1 then
    "($" ++ Nat.repr placeholder_index
  else
    "$" ++ Nat.repr placeholder_index

/-- `InsertRecords::build_sql` from `src/postgres/sql_base.rs`, lines 190-207;
the loop `1..=number_elements` becomes `List.range' 1 number_elements`. -/
def InsertRecords.build_sql (self : InsertRecords) (table_name : String) : String :=
  let number_elements := self.keys.length * self.insert_records.length
  rustJoin " "
    ["INSERT INTO", table_name,
     "(" ++ rustJoin ", " self.keys ++ ") VALUES " ++
       rustJoin ", " ((List.range' 1 number_elements).map (insertPlaceholderPiece self.keys.length))]

/-- `SqlType` from the access-generation `sql_base` (`src/legacy/sql_base.rs`,
whose borrowed variants are the ones `src/access/postgres.rs` constructs). -/
inductive SqlType
  | Select (query_columns : QueryColumns)
  | Update (update_sets : UpdateSets)
  | Insert (insert_records : InsertRecords)
  | Delete

/-- `SqlType::sql_build` from `src/legacy/sql_base.rs`, lines 479-486: the
`Delete` arm renders `DELETE FROM <table>`.  (The superseded copy in
`src/postgres/sql_base.rs`, line 216, renders `DELETE <table>` without
`FROM`; the access/legacy generation modelled here corrected that.) -/
def SqlType.sql_build (self : SqlType) (table_name : String) : String :=
  match self with
  | SqlType.Select query_columns => query_columns.build_sql table_name
  | SqlType.Insert insert_values => insert_values.build_sql table_name
  | SqlType.Update update_sets => update_sets.build_sql table_name
  | SqlType.Delete => "DELETE FROM " ++ table_name

end SqlBase

namespace Postgres

/-- `PostgresBaseError` (the variants exercised by the embedded operations). -/
inductive PostgresBaseError
  | InputInvalidError (msg : String)
  | UnsafeExecutionError (msg : String)
deriving DecidableEq

/-- Statement-assembly part of `PostgresBase::update_condition`
(`src/access/postgres.rs`, lines 390-406): the SQL text and the ordered
parameter list that are handed to `execute`; the database round-trip itself
is outside the embedded core. -/
def update_condition (table_name : String) (update_set : SqlBase.UpdateSets)
    (conditions : Access.Conditions) : String × List String :=
  let set_num := update_set.get_num_values
  let params_values := update_set.get_flat_values ++ conditions.get_flat_values
  let statement_base := (SqlBase.SqlType.Update update_set).sql_build table_name
  let statement_vec :=
    if conditions.is_empty then [statement_base]
    else [statement_base, conditions.generate_statement_text set_num]
  (rustJoin " " statement_vec, params_values)

/-- `PostgresBase::update` (`src/access/postgres.rs`, lines 342-350): without
the `allow_all_update` flag the call is refused with `UnsafeExecutionError`
before any statement is assembled. -/
def update (table_name : String) (update_set : SqlBase.UpdateSets)
    (allow_all_update : Bool) : Except PostgresBaseError (String × List String) :=
  if allow_all_update then
    Except.ok (update_condition table_name update_set Access.Conditions.new)
  else
    Except.error (PostgresBaseError.UnsafeExecutionError
      "'update' method will update all records in the specified table so please consider to use 'update_condition' instead of this.")

/-- Statement-assembly part of `PostgresBase::delete`
(`src/access/postgres.rs`, lines 442-457): an empty condition chain is
refused before any SQL text is produced. -/
def delete (table_name : String) (conditions : Access.Conditions) :
    Except PostgresBaseError (String × List String) :=
  if conditions.is_empty then
    Except.error (PostgresBaseError.UnsafeExecutionError
      "'delete' method unsupported deleting records without any condition.")
  else
    let statement_base := SqlBase.SqlType.Delete.sql_build table_name
    Except.ok
      (rustJoin " " [statement_base, conditions.generate_statement_text 0],
       conditions.get_flat_values)

end Postgres

namespace Converter

/-- `Param` from `src/access/converter.rs`.  The `Float`/`Double`/`Decimal`
payloads keep the source text of the numeral (the embedding tracks which
variant the inference engine produces; IEEE value semantics are outside it),
temporal payloads keep the parsed calendar/clock components. -/
inductive Param
  | Text (s : String)
  | SmallInt (v : Int)
  | Int (v : Int)
  | BigInt (v : Int)
  | Float (source : String)
  | Double (source : String)
  | Decimal (source : String)
  | Date (y : Int) (m : Nat) (d : Nat)
  | DateTime (y : Int) (m : Nat) (d : Nat) (hh : Nat) (mm : Nat) (ss : Nat)
  | Time (hh : Nat) (mm : Nat) (ss : Nat)
  | Bool (b : Bool)
deriving DecidableEq

/-- `DataParseError` from the access error module. -/
inductive DataParseError
  | ParseIntError (msg : String)
  | ParseFloatError (msg : String)
  | ParseDateTimeError (msg : String)
  | ParseUnsupportedError (data_type : String)
deriving DecidableEq

def digitVal (c : Char) : Nat := c.toNat - '0'.toNat

def digitsToNat (l : List Char) : Nat := l.foldl (fun acc c => acc * 10 + digitVal c) 0

/-- Rust `<iN as FromStr>::from_str` for a signed integer type with bounds
`lo..=hi`: an optional single sign followed by one or more ASCII digits,
value within bounds (out-of-range input is a `Pos/NegOverflow` error). -/
def rustParseInt (lo hi : Int) (s : String) : Option Int :=
  let (neg, ds) :=
    match s.data with
    | '+' :: rest => (false, rest)
    | '-' :: rest => (true, rest)
    | l => (false, l)
  if ds.isEmpty || !ds.all Char.isDigit then none
  else
    let v : Int := if neg then -(digitsToNat ds : Int) else (digitsToNat ds : Int)
    if lo ≤ v ∧ v ≤ hi then some v else none

def rustParse_i16 : String → Option Int := rustParseInt (-(2 ^ 15)) (2 ^ 15 - 1)

def rustParse_i32 : String → Option Int := rustParseInt (-(2 ^ 31)) (2 ^ 31 - 1)

def rustParse_i64 : String → Option Int := rustParseInt (-(2 ^ 63)) (2 ^ 63 - 1)

/-- Case-insensitive `inf` / `infinity` / `nan` body of Rust's float grammar. -/
def isInfNanBody (l : List Char) : Bool :=
  let low := l.map Char.toLower
  low = "inf".data || low = "infinity".data || low = "nan".data

/-- Remainder after a valid Rust float mantissa (`Digits`, `Digits . Digits?`
or `. Digits`), or `none` when no mantissa is present. -/
def mantissaSplit (l : List Char) : Option (List Char) :=
  let d1 := l.takeWhile Char.isDigit
  let r1 := l.dropWhile Char.isDigit
  match r1 with
  | '.' :: r2 =>
    let d2 := r2.takeWhile Char.isDigit
    let r3 := r2.dropWhile Char.isDigit
    if d1.isEmpty && d2.isEmpty then none else some r3
  | _ => if d1.isEmpty then none else some r1

/-- A complete, possibly empty, Rust float exponent: nothing, or
`(e|E) sign? Digits`. -/
def expOk (l : List Char) : Bool :=
  match l with
  | [] => true
  | c :: rest =>
    (c = 'e' || c = 'E') &&
      (let rest2 :=
        match rest with
        | '+' :: r => r
        | '-' :: r => r
        | r => r
       !rest2.isEmpty && rest2.all Char.isDigit)

/-- Rust `<f32/f64 as FromStr>::from_str` succeeds exactly on this grammar
(an in-grammar value that overflows the type parses to an infinity, it is
not an error), so the parse-success predicate is shared by `f32` and `f64`. -/
def rustParseFloatOk (s : String) : Bool :=
  let body :=
    match s.data with
    | '+' :: rest => rest
    | '-' :: rest => rest
    | l => l
  if isInfNanBody body then true
  else
    match mantissaSplit body with
    | none => false
    | some rest => expOk rest

/-- `rust_decimal::Decimal::from_str` on plain decimal notation:
`sign? Digits? (. Digits?)?` with at least one digit overall (the crate's
underscore separators and 96-bit magnitude bound are not modelled; no input
below exercises them). -/
def decimalParseOk (s : String) : Bool :=
  let body :=
    match s.data with
    | '+' :: rest => rest
    | '-' :: rest => rest
    | l => l
  let d1 := body.takeWhile Char.isDigit
  let r1 := body.dropWhile Char.isDigit
  match r1 with
  | [] => !d1.isEmpty
  | '.' :: r2 => (!d1.isEmpty || !r2.isEmpty) && r2.all Char.isDigit
  | _ => false

/-- Days of a month in the proleptic Gregorian calendar used by chrono. -/
def daysInMonth (y : Int) (m : Nat) : Nat :=
  if m = 2 then (if (y % 4 = 0 ∧ y % 100 ≠ 0) ∨ y % 400 = 0 then 29 else 28)
  else if m = 4 ∨ m = 6 ∨ m = 9 ∨ m = 11 then 30
  else 31

/-- chrono `NaiveDate::from_str`: ISO `year-month-day` with an optional sign
on the year and 1-2 digit month/day; the triple must be a real calendar date
(chrono's ±262143 year bound is not modelled). -/
def parseNaiveDateChars (l : List Char) : Option (Int × Nat × Nat) :=
  let (neg, rest) :=
    match l with
    | '-' :: r => (true, r)
    | '+' :: r => (false, r)
    | r => (false, r)
  let yd := rest.takeWhile Char.isDigit
  let r1 := rest.dropWhile Char.isDigit
  match r1 with
  | '-' :: r2 =>
    let md := r2.takeWhile Char.isDigit
    let r3 := r2.dropWhile Char.isDigit
    match r3 with
    | '-' :: r4 =>
      let dd := r4.takeWhile Char.isDigit
      let r5 := r4.dropWhile Char.isDigit
      if yd.isEmpty || md.isEmpty || dd.isEmpty || !r5.isEmpty then none
      else
        let y : Int := if neg then -(digitsToNat yd : Int) else (digitsToNat yd : Int)
        let m := digitsToNat md
        let d := digitsToNat dd
        if 1 ≤ m ∧ m ≤ 12 ∧ 1 ≤ d ∧ d ≤ daysInMonth y m then some (y, m, d) else none
    | _ => none
  | _ => none

/-- Clock time `hh:mm[:ss[.frac]]`, returning the remainder of the input
after the time (used both for chrono `NaiveTime::from_str`, which requires
an empty remainder, and for the zoned formats, which parse an offset from
the remainder). -/
def parseTimeAndRest (l : List Char) : Option ((Nat × Nat × Nat) × List Char) :=
  let hd := l.takeWhile Char.isDigit
  let r1 := l.dropWhile Char.isDigit
  match r1 with
  | ':' :: r2 =>
    let md := r2.takeWhile Char.isDigit
    let r3 := r2.dropWhile Char.isDigit
    if hd.isEmpty || md.isEmpty then none
    else
      let hh := digitsToNat hd
      let mm := digitsToNat md
      let secPart :=
        match r3 with
        | ':' :: r4 =>
          let sd := r4.takeWhile Char.isDigit
          let r5 := r4.dropWhile Char.isDigit
          if sd.isEmpty then none
          else
            match r5 with
            | '.' :: r6 =>
              let fd := r6.takeWhile Char.isDigit
              let r7 := r6.dropWhile Char.isDigit
              if fd.isEmpty then none else some (digitsToNat sd, r7)
            | _ => some (digitsToNat sd, r5)
        | _ => none
      match secPart with
      | some (ss, rest) =>
        if hh ≤ 23 ∧ mm ≤ 59 ∧ ss ≤ 60 then some ((hh, mm, ss), rest) else none
      | none =>
        if hh ≤ 23 ∧ mm ≤ 59 then some ((hh, mm, 0), r3) else none
  | _ => none

/-- chrono `NaiveTime::from_str`: a complete `hh:mm[:ss[.frac]]` string. -/
def parseNaiveTimeChars (l : List Char) : Option (Nat × Nat × Nat) :=
  match parseTimeAndRest l with
  | some (t, []) => some t
  | _ => none

/-- chrono `NaiveDateTime::from_str`: date, a single `T` or space, time. -/
def parseNaiveDateTimeChars (l : List Char) :
    Option (Int × Nat × Nat × Nat × Nat × Nat) :=
  let datePart := l.takeWhile (fun c => c ≠ 'T' ∧ c ≠ ' ')
  match l.dropWhile (fun c => c ≠ 'T' ∧ c ≠ ' ') with
  | _ :: timePart =>
    match parseNaiveDateChars datePart, parseNaiveTimeChars timePart with
    | some (y, m, d), some (hh, mm, ss) => some (y, m, d, hh, mm, ss)
    | _, _ => none
  | [] => none

/-- `bool::from_str`: the literals `true` and `false` only. -/
def rustParseBool (s : String) : Option Bool :=
  if s = "true" then some true else if s = "false" then some false else none

/-- RFC 3339 numeric offset `±hh:mm`, or `Z`/`z`. -/
def offset3339Ok : List Char → Bool
  | ['Z'] => true
  | ['z'] => true
  | c :: rest =>
    (c = '+' || c = '-') &&
      (match rest with
       | [h1, h2, ':', m1, m2] =>
         h1.isDigit && h2.isDigit && m1.isDigit && m2.isDigit
       | _ => false)
  | [] => false

/-- `DateTime::parse_from_rfc3339`: date, `T`/`t`/space, time, offset. -/
def rfc3339Ok (s : String) : Bool :=
  let l := s.data
  let datePart := l.takeWhile (fun c => c ≠ 'T' ∧ c ≠ 't' ∧ c ≠ ' ')
  match l.dropWhile (fun c => c ≠ 'T' ∧ c ≠ 't' ∧ c ≠ ' ') with
  | _ :: rest =>
    (parseNaiveDateChars datePart).isSome &&
      (match parseTimeAndRest rest with
       | some (_, off) => offset3339Ok off
       | none => false)
  | [] => false

/-- Splits a character list on single spaces, dropping empty segments. -/
def splitSpacesAux : List Char → List Char → List (List Char)
  | [], acc => if acc.isEmpty then [] else [acc.reverse]
  | ' ' :: rest, acc =>
    (if acc.isEmpty then [] else [acc.reverse]) ++ splitSpacesAux rest []
  | c :: rest, acc => splitSpacesAux rest (c :: acc)

def splitSpaces (l : List Char) : List (List Char) := splitSpacesAux l []

def rfc2822Months : List String :=
  ["Jan", "Feb", "Mar", "Apr", "May", "Jun", "Jul", "Aug", "Sep", "Oct", "Nov", "Dec"]

def rfc2822Zones : List String :=
  ["GMT", "UT", "UTC", "EST", "EDT", "CST", "CDT", "MST", "MDT", "PST", "PDT"]

def rfc2822ZoneOk (w : List Char) : Bool :=
  (rfc2822Zones.any (fun z => z.data = w)) ||
    (match w with
     | s :: d1 :: d2 :: d3 :: d4 :: [] =>
       (s = '+' || s = '-') && d1.isDigit && d2.isDigit && d3.isDigit && d4.isDigit
     | _ => false)

/-- `DateTime::parse_from_rfc2822`:
`[weekday,] day month-name year hh:mm[:ss] zone`. -/
def rfc2822Ok (s : String) : Bool :=
  let words := splitSpaces s.data
  let words :=
    match words with
    | w :: rest => if w.getLast? = some ',' then rest else words
    | [] => words
  match words with
  | [day, mon, year, time, zone] =>
    (!day.isEmpty && day.all Char.isDigit && day.length ≤ 2) &&
    (rfc2822Months.any (fun m => m.data = mon)) &&
    (!year.isEmpty && year.all Char.isDigit && year.length ≤ 4) &&
    (match parseTimeAndRest time with
     | some (_, []) => true
     | _ => false) &&
    rfc2822ZoneOk zone
  | _ => false

/-- Numeric offset accepted by chrono's `%z`: `±hhmm` or `±hh:mm`. -/
def offsetPercentZOk (w : List Char) : Bool :=
  match w with
  | s :: d1 :: d2 :: ':' :: d3 :: d4 :: [] =>
    (s = '+' || s = '-') && d1.isDigit && d2.isDigit && d3.isDigit && d4.isDigit
  | s :: d1 :: d2 :: d3 :: d4 :: [] =>
    (s = '+' || s = '-') && d1.isDigit && d2.isDigit && d3.isDigit && d4.isDigit
  | _ => false

/-- `DateTime::parse_from_str(data, "%Y-%m-%d %H:%M:%S %z")`. -/
def customZonedOk (s : String) : Bool :=
  match splitSpaces s.data with
  | [datew, timew, zonew] =>
    (parseNaiveDateChars datew).isSome &&
      (match parseTimeAndRest timew with
       | some ((_, _, _), []) => timew.any (fun c => c = ':')
       | _ => false) &&
      (timew.filter (fun c => c = ':')).length = 2 &&
      offsetPercentZOk zonew
  | _ => false

/-- `parse_datetime_with_zones` from `src/access/converter.rs`, lines 53-65. -/
def parse_datetime_with_zones (data : String) : Bool :=
  rfc3339Ok data || rfc2822Ok data || customZonedOk data

/-- `ParsedData` from `src/access/converter.rs`. -/
inductive ParsedData (α : Type)
  | Parsed (v : α)
  | Text (p : Param)

/-- `parse_data` from `src/access/converter.rs`, lines 46-51: parse
`data[..len-3]` (the text without its 3-byte suffix; the suffixed inputs
reaching it are ASCII, so byte and character slicing agree); on failure the
whole text becomes a `Text` parameter. -/
def parse_data {α : Type} (parser : String → Option α) (data : String) : ParsedData α :=
  match parser (List.asString (data.data.take (data.data.length - 3))) with
  | some parsed_data => ParsedData.Parsed parsed_data
  | none => ParsedData.Text (Param.Text data)

/-- `str::ends_with`. -/
def strEndsWith (s suffix : String) : Bool :=
  List.isPrefixOf suffix.data.reverse s.data.reverse

/-- `UNSUPPORTED_DATA_TYPE` from `src/access/converter.rs`, line 8. -/
def UNSUPPORTED_DATA_TYPE : List String :=
  ["f16", "isize", "fsize", "u16", "u32", "u64", "usize"]

/-- `str_to_value` from `src/access/converter.rs`, lines 67-139.  The float
parsers are represented by their success predicate (`rustParseFloatOk`), with
the accepted source text as the parameter payload. -/
def str_to_value (data : String) : Except DataParseError Param :=
  if strEndsWith data "i16" then
    match parse_data rustParse_i16 data with
    | ParsedData.Parsed smallint => Except.ok (Param.SmallInt smallint)
    | ParsedData.Text text =>
      match parse_data rustParse_i64 data with
      | ParsedData.Parsed int =>
        Except.error (DataParseError.ParseIntError
          ("'" ++ toString int ++ "' can not convert to i16(smallint) because overflow the range."))
      | ParsedData.Text _ => Except.ok text
  else if strEndsWith data "i64" then
    match parse_data rustParse_i64 data with
    | ParsedData.Parsed bigint => Except.ok (Param.BigInt bigint)
    | ParsedData.Text text => Except.ok text
  else if strEndsWith data "f64" then
    match parse_data (fun s => if rustParseFloatOk s then some s else none) data with
    | ParsedData.Parsed double => Except.ok (Param.Double double)
    | ParsedData.Text text => Except.ok text
  else if strEndsWith data "dec" then
    match parse_data (fun s => if decimalParseOk s then some s else none) data with
    | ParsedData.Parsed decimal => Except.ok (Param.Decimal decimal)
    | ParsedData.Text text => Except.ok text
  else
    match rustParse_i32 data with
    | some int => Except.ok (Param.Int int)
    | none =>
      if rustParseFloatOk data then Except.ok (Param.Float data)
      else
        match parseNaiveDateTimeChars data.data with
        | some (y, m, d, hh, mm, ss) => Except.ok (Param.DateTime y m d hh mm ss)
        | none =>
          match parseNaiveDateChars data.data with
          | some (y, m, d) => Except.ok (Param.Date y m d)
          | none =>
            match parseNaiveTimeChars data.data with
            | some (hh, mm, ss) => Except.ok (Param.Time hh mm ss)
            | none =>
              match rustParseBool data with
              | some b => Except.ok (Param.Bool b)
              | none =>
                if rustParseFloatOk data then
                  Except.error (DataParseError.ParseFloatError
                    ("'" ++ data ++ "' can not convert to f32(real) because overflow the range."))
                else
                  match rustParse_i64 data with
                  | some invalid_int =>
                    Except.error (DataParseError.ParseIntError
                      ("'" ++ toString invalid_int ++ "' can not convert to i32(integer) because overflow the range."))
                  | none =>
                    if parse_datetime_with_zones data then
                      Except.error (DataParseError.ParseDateTimeError
                        "DateTime with timezone is unsupported. Please use non timezone datetime instead.")
                    else if UNSUPPORTED_DATA_TYPE.any (fun t => strEndsWith data t) then
                      Except.error (DataParseError.ParseUnsupportedError
                        (List.asString (data.data.drop (data.data.length - 3))))
                    else
                      Except.ok (Param.Text data)

end Converter

namespace Gen

/-- `BindMethod` from `src/generator/base.rs`. -/
inductive BindMethod
  | FirstCondition
  | And
  | Or
deriving DecidableEq

/-- `Display for BindMethod` (`src/generator/base.rs`, lines 76-84):
`FirstCondition` writes nothing. -/
def BindMethod.display : BindMethod → String
  | BindMethod.And => "AND"
  | BindMethod.Or => "OR"
  | BindMethod.FirstCondition => ""

/-- `ConditionOperator` from `src/generator/base.rs`. -/
inductive ConditionOperator
  | Equal
  | NotEqual
  | Greater
  | GreaterEq
  | Lower
  | LowerEq
  | In
  | NotIn
  | Like
  | NotLike
  | ILike
  | NotILike
  | IsNull
  | IsNotNull
deriving DecidableEq

/-- `Display for ConditionOperator` (`src/generator/base.rs`, lines 48-67). -/
def ConditionOperator.display : ConditionOperator → String
  | ConditionOperator.Equal => "="
  | ConditionOperator.NotEqual => "!="
  | ConditionOperator.Greater => ">"
  | ConditionOperator.GreaterEq => ">="
  | ConditionOperator.Lower => "<"
  | ConditionOperator.LowerEq => "<="
  | ConditionOperator.In => "IN"
  | ConditionOperator.NotIn => "NOT IN"
  | ConditionOperator.Like => "LIKE"
  | ConditionOperator.NotLike => "NOT LIKE"
  | ConditionOperator.ILike => "ILIKE"
  | ConditionOperator.NotILike => "NOT ILIKE"
  | ConditionOperator.IsNull => "IS NULL"
  | ConditionOperator.IsNotNull => "IS NOT NULL"

/-- `Variable` from `src/utils/helpers.rs`; as for `Converter.Param`, float
and decimal payloads carry their source text and temporal payloads their
components (only variant identity matters to the statements proved here). -/
inductive Variable
  | Text (s : String)
  | SmallInt (v : Int)
  | Int (v : Int)
  | BigInt (v : Int)
  | Float (source : String)
  | Double (source : String)
  | Decimal (source : String)
  | Date (y : Int) (m : Nat) (d : Nat)
  | DateTime (y : Int) (m : Nat) (d : Nat) (hh : Nat) (mm : Nat) (ss : Nat)
  | Time (hh : Nat) (mm : Nat) (ss : Nat)
  | Bool (b : Bool)
deriving DecidableEq

/-- `GeneratorError` from `src/utils/errors.rs`. -/
inductive GeneratorError
  | InvalidTableNameError (msg : String)
  | InconsistentConfigError (msg : String)
  | InvalidInputError (msg : String)
deriving DecidableEq

/-- `Table` from `src/utils/helpers.rs`.  The recursive `SubQueryAsTable`
arm is not modelled: sub-query support in the generator is unfinished in src
(its condition renderer is `todo!()` and `update_placeholder_num` is never
called). -/
inductive Table
  | WithSchema (schema_name : String) (table_name : String)
  | NonSchema (table_name : String)
deriving DecidableEq

/-- `Table::get_table_name` (for the two modelled arms `Display` agrees). -/
def Table.get_table_name : Table → String
  | Table.WithSchema schema_name table_name => schema_name ++ "." ++ table_name
  | Table.NonSchema table_name => table_name

/-- `Column` from `src/utils/helpers.rs`. -/
structure Column where
  table : Table
  column_name : String
deriving DecidableEq

/-- `Display for Column`: `table.column`. -/
def Column.display (self : Column) : String :=
  self.table.get_table_name ++ "." ++ self.column_name

/-- `Aggregation` from `src/generator/base.rs` with its `Display`. -/
inductive Aggregation
  | Avg (column : Column)
  | Count (column : Column)
  | Sum (column : Column)
  | Min (column : Column)
  | Max (column : Column)
deriving DecidableEq

def Aggregation.display : Aggregation → String
  | Aggregation.Avg column => "AVG(" ++ column.display ++ ")"
  | Aggregation.Count column => "COUNT(" ++ column.display ++ ")"
  | Aggregation.Sum column => "SUM(" ++ column.display ++ ")"
  | Aggregation.Min column => "MIN(" ++ column.display ++ ")"
  | Aggregation.Max column => "MAX(" ++ column.display ++ ")"

/-- `QueryColumn` from `src/generator/query/query_column.rs`. -/
inductive QueryColumn
  | AsIs (column : Column)
  | Aggregation (aggregation : Aggregation)
deriving DecidableEq

/-- `QueryColumn::get_statement`. -/
def QueryColumn.get_statement : QueryColumn → String
  | QueryColumn.AsIs column => column.display
  | QueryColumn.Aggregation aggregation => aggregation.display

/-- `QueryColumns` from `src/generator/query/query_column.rs`. -/
inductive QueryColumns
  | AllColumns (table : Table)
  | SpecifyColumns (columns : List QueryColumn)
deriving DecidableEq

/-- `QueryColumns::get_query_columns_statement` (lines 44-56). -/
def QueryColumns.get_query_columns_statement : QueryColumns → String
  | QueryColumns.AllColumns table => table.get_table_name ++ ".*"
  | QueryColumns.SpecifyColumns columns =>
    rustJoin ", " (columns.map QueryColumn.get_statement)

/-- `Condition` from `src/generator/base/condition.rs`.  The
`SubQueryCondition` arm is not modelled (its renderer is `todo!()` in src). -/
inductive Condition
  | OnMainTable (column : String) (ref_value : Variable)
      (operator : ConditionOperator) (bind_method : BindMethod)
  | SameSchemaTable (table_name : String) (column : String) (ref_value : Variable)
      (operator : ConditionOperator) (bind_method : BindMethod)
  | AnotherSchemaTable (schema_name : String) (table_name : String) (column : String)
      (ref_value : Variable) (operator : ConditionOperator) (bind_method : BindMethod)
deriving DecidableEq

/-- `Condition::get_bind_method`. -/
def Condition.get_bind_method : Condition → BindMethod
  | Condition.OnMainTable _ _ _ bind_method => bind_method
  | Condition.SameSchemaTable _ _ _ _ bind_method => bind_method
  | Condition.AnotherSchemaTable _ _ _ _ _ bind_method => bind_method

/-- The qualification pattern of `Condition::get_condition_statement`
(lines 101-122): bare / `table.column` / `schema.table.column`. -/
def Condition.qualified_column : Condition → String
  | Condition.OnMainTable column _ _ _ => column
  | Condition.SameSchemaTable table_name column _ _ _ => table_name ++ "." ++ column
  | Condition.AnotherSchemaTable schema_name table_name column _ _ _ =>
    schema_name ++ "." ++ table_name ++ "." ++ column

def Condition.get_operator : Condition → ConditionOperator
  | Condition.OnMainTable _ _ operator _ => operator
  | Condition.SameSchemaTable _ _ _ operator _ => operator
  | Condition.AnotherSchemaTable _ _ _ _ operator _ => operator

/-- `Conditions` from `src/generator/base/condition.rs`. -/
structure Conditions where
  conditions : List Condition
  bind_methods : List BindMethod
deriving DecidableEq

def Conditions.new : Conditions := { conditions := [], bind_methods := [] }

/-- `Conditions::len`. -/
def Conditions.len (self : Conditions) : Nat := self.conditions.length

/-- `Conditions::add_condition` from `src/generator/base/condition.rs`,
lines 23-42, embedded statement by statement: note that on the path where an
explicitly `FirstCondition`-bound condition is appended to an empty chain the
Rust code pushes the condition but never pushes a bind method. -/
def Conditions.add_condition (self : Conditions) (condition : Condition) :
    Option GeneratorError × Conditions :=
  if condition.get_bind_method = BindMethod.FirstCondition then
    if self.conditions.length ≠ 0 then
      (some (GeneratorError.InconsistentConfigError
        "'FirstCondition' indicates the first condition but already exist some conditions."),
       self)
    else
      (none, { self with conditions := self.conditions ++ [condition] })
  else
    if self.conditions.length = 0 then
      (none, { conditions := self.conditions ++ [condition],
               bind_methods := self.bind_methods ++ [BindMethod.FirstCondition] })
    else
      (none, { conditions := self.conditions ++ [condition],
               bind_methods := self.bind_methods ++ [condition.get_bind_method] })

/-- Modelled from the spec: `Conditions::get_total_statement` is called by
`QueryGenerator::get_statement` (src/generator/query.rs line 153) but absent
from `src/generator/base/condition.rs`.  Per spec section 4.3-4.4 it renders
`WHERE` followed, per condition, by the bind keyword (omitted for the first
condition) and `qualified_column operator $N`, `N` running from
`start_placeholder`, one placeholder per bound value.  `whereLoop` is its
per-pair loop. -/
def whereLoop : List (Condition × BindMethod) → Nat → List String
  | [], _ => []
  | (condition, bind_method) :: rest, k =>
    (match bind_method with
     | BindMethod.FirstCondition => []
     | BindMethod.And => ["AND"]
     | BindMethod.Or => ["OR"]) ++
    (condition.qualified_column ++ " " ++ condition.get_operator.display ++ " $" ++ Nat.repr k)
      :: whereLoop rest (k + 1)

/-- Modelled from the spec: see `whereLoop`. -/
def Conditions.get_total_statement (self : Conditions) (start_placeholder : Nat) : String :=
  rustJoin " " ("WHERE" :: whereLoop (self.conditions.zip self.bind_methods) start_placeholder)

/-- `ReferenceValue` from `src/generator/base.rs`; the recursive
`SubQueryAggregation` arm is not modelled (see `Table`). -/
inductive ReferenceValue
  | Variable (v : Variable)
deriving DecidableEq

/-- `ReferenceValue::get_parameter_num` (`Variable` arm: 1). -/
def ReferenceValue.get_parameter_num : ReferenceValue → Nat
  | ReferenceValue.Variable _ => 1

/-- `GroupCondition` from `src/generator/query/grouping.rs`. -/
structure GroupCondition where
  aggregation : Aggregation
  ref_value : ReferenceValue
  condition_operator : ConditionOperator
deriving DecidableEq

/-- `GroupCondition::get_statement` (grouping.rs, lines 98-103, `Variable`
arm). -/
def GroupCondition.get_statement (self : GroupCondition)
    (start_placeholder_number : Nat) : String :=
  match self.ref_value with
  | ReferenceValue.Variable _ =>
    self.aggregation.display ++ " " ++ self.condition_operator.display ++ " $" ++
      Nat.repr start_placeholder_number

/-- `GroupCondition::get_parameters_number`. -/
def GroupCondition.get_parameters_number (self : GroupCondition) : Nat :=
  self.ref_value.get_parameter_num

/-- Loop of `GroupConditions::get_total_statement` (grouping.rs, lines
51-62): `index` advances by each condition's parameter count. -/
def havingLoop : List GroupCondition → Nat → List String
  | [], _ => []
  | condition :: rest, index =>
    condition.get_statement index :: havingLoop rest (index + condition.get_parameters_number)

/-- `GroupConditions::get_total_statement` from grouping.rs, lines 51-62. -/
def GroupConditions.get_total_statement (group_conditions : List GroupCondition)
    (start_placeholder : Nat) : String :=
  rustJoin " " ("HAVING" :: havingLoop group_conditions start_placeholder)

/-- `Groupings::get_grouping_statement` (grouping.rs, lines 23-31). -/
def Groupings.get_grouping_statement (groupings : List Column) : String :=
  "GROUP BY" ++ " " ++ rustJoin ", " (groupings.map Column.display)

/-- `SortMethod` from `src/generator/base.rs` with its `Display`. -/
inductive SortMethod
  | Asc
  | Desc
deriving DecidableEq

def SortMethod.display : SortMethod → String
  | SortMethod.Asc => "ASC"
  | SortMethod.Desc => "DESC"

/-- `SortRule` from `src/generator/base.rs`. -/
structure SortRule where
  column : Column
  sort_method : SortMethod
deriving DecidableEq

/-- `SortRule::get_sort_statement`. -/
def SortRule.get_sort_statement (self : SortRule) : String :=
  self.column.display ++ " " ++ self.sort_method.display

/-- `SortRules::get_sort_rule_statement` (base.rs, lines 118-126). -/
def SortRules.get_sort_rule_statement (sort_rules : List SortRule) : String :=
  "ORDER BY " ++ rustJoin ", " (sort_rules.map SortRule.get_sort_statement)

/-- `JoinType` from `src/generator/base/join_table.rs`. -/
inductive JoinType
  | Inner
  | Left
  | Right
  | Full
deriving DecidableEq

/-- `JoinColumn` from `src/generator/base/join_table.rs`. -/
structure JoinColumn where
  joined_column : String
  destination_joined_column : Column
  operator : ConditionOperator
  bind_method : BindMethod
deriving DecidableEq

/-- `JoinColumns` from `src/generator/base/join_table.rs`. -/
inductive JoinColumns
  | AllColumns
  | SpecifyColumns (columns : List JoinColumn)
deriving DecidableEq

/-- `JoinTable` from `src/generator/base/join_table.rs`; its two schema
variants are folded into an optional schema name. -/
structure JoinTable where
  schema_name : Option String
  table_name : String
  query_columns : QueryColumns
  join_columns : JoinColumns
  join_method : JoinType
deriving DecidableEq

/-- `JoinTable::get_table_name`. -/
def JoinTable.get_table_name (self : JoinTable) : String :=
  match self.schema_name with
  | some schema_name => schema_name ++ "." ++ self.table_name
  | none => self.table_name

/-- ON-clause loop of `JoinTable::get_join_statement` (join_table.rs, lines
109-138).  The src code tests the destination column against a
`Column::OnMainTable` enum variant that does not exist in the `Column` type
of `src/utils/helpers.rs`; the embedding keeps the branch that type-checks
against that `Column` (destination rendered by its own display).  Note the
current column's bind method (possibly the empty `FirstCondition` display)
is pushed before every item except the first. -/
def joinOnPieces (table_name : String) : List JoinColumn → Bool → List String
  | [], _ => []
  | column :: rest, isFirst =>
    (if isFirst then [] else [column.bind_method.display]) ++
    (column.destination_joined_column.display ++ " " ++ column.operator.display ++ " " ++
        table_name ++ "." ++ column.joined_column)
      :: joinOnPieces table_name rest false

/-- `JoinTable::get_join_statement` from join_table.rs, lines 95-143. -/
def JoinTable.get_join_statement (self : JoinTable) (main_table_name : String) : String :=
  let join_method :=
    match self.join_method with
    | JoinType.Inner => "JOIN"
    | JoinType.Left => "LEFT JOIN"
    | JoinType.Right => "RIGHT JOIN"
    | JoinType.Full => "FULL JOIN"
  let join_columns :=
    match self.join_columns with
    | JoinColumns.AllColumns => "TRUE"
    | JoinColumns.SpecifyColumns columns =>
      rustJoin " " (joinOnPieces self.get_table_name columns true)
  let _ := main_table_name
  rustJoin " " [join_method, self.get_table_name, join_columns]

/-- Modelled from the spec: `JoinTables::get_total_statement` is called by
`QueryGenerator::get_statement` (query.rs line 140) but absent from
`src/generator/base/join_table.rs` (which has `get_join_statement`).  Join
keys are column-to-column comparisons binding no values, so the start
placeholder is unused and the rendering is the per-table
`get_join_statement`s joined by spaces (join_table.rs, lines 27-35). -/
def JoinTables.get_total_statement (join_tables : List JoinTable)
    (main_table_name : String) (start_placeholder : Nat) : String :=
  let _ := start_placeholder
  rustJoin " " (join_tables.map (fun jt => jt.get_join_statement main_table_name))

/-- Modelled from the spec: `JoinTables::get_query_columns` (query.rs line
139) — the joined tables' projections, comma-joined. -/
def JoinTables.get_query_columns (join_tables : List JoinTable) : String :=
  rustJoin ", " (join_tables.map (fun jt => jt.query_columns.get_query_columns_statement))

/-- `QueryGenerator` from `src/generator/query.rs` (the `include_tables`
validation set is not needed for rendering). -/
structure QueryGenerator where
  base_table : Table
  main_query_columns : QueryColumns
  join_tables : List JoinTable
  conditions : Conditions
  groupings : List Column
  group_conditions : List GroupCondition
  sort_rules : List SortRule
  placeholder_start_num : Nat
deriving DecidableEq

/-- `QueryGenerator::new` (query.rs, lines 27-44): the placeholder counter
starts at 1. -/
def QueryGenerator.new (base_table : Table) (query_columns : QueryColumns) : QueryGenerator :=
  { base_table := base_table, main_query_columns := query_columns,
    join_tables := [], conditions := Conditions.new, groupings := [],
    group_conditions := [], sort_rules := [], placeholder_start_num := 1 }

/-- `QueryGenerator::get_statement` from `src/generator/query.rs`, lines
132-167.  The Rust code bumps `parameter_counter` by `conditions.len()` only
inside the `conditions.len() != 0` branch; since the bump is zero in the
other branch, the HAVING clause start is written unconditionally as
`parameter_counter + len`. -/
def QueryGenerator.get_statement (self : QueryGenerator) : String :=
  let parameter_counter := self.placeholder_start_num
  let columns_vec :=
    [self.main_query_columns.get_query_columns_statement] ++
      (if self.join_tables.length ≠ 0 then [JoinTables.get_query_columns self.join_tables] else [])
  let join_tables_vec :=
    if self.join_tables.length ≠ 0 then
      [JoinTables.get_total_statement self.join_tables self.base_table.get_table_name
        parameter_counter]
    else []
  let query_columns := rustJoin ", " columns_vec
  let join_tables_stmt := rustJoin " " join_tables_vec
  let from_statement := "FROM " ++ self.base_table.get_table_name
  rustJoin " "
    (["SELECT", query_columns, from_statement] ++
     (if self.join_tables.length ≠ 0 then [join_tables_stmt] else []) ++
     (if self.conditions.len ≠ 0 then
        [self.conditions.get_total_statement parameter_counter] else []) ++
     (if self.groupings.length ≠ 0 then [Groupings.get_grouping_statement self.groupings] else []) ++
     (if self.group_conditions.length ≠ 0 then
        [GroupConditions.get_total_statement self.group_conditions
          (parameter_counter + self.conditions.len)] else []) ++
     (if self.sort_rules.length ≠ 0 then
        [SortRules.get_sort_rule_statement self.sort_rules] else []))

/-- Dollar-freeness of the identifier fields, per structure. -/
def Table.clean : Table → Bool
  | Table.WithSchema schema_name table_name => NoDollar schema_name && NoDollar table_name
  | Table.NonSchema table_name => NoDollar table_name

def Column.clean (self : Column) : Bool :=
  self.table.clean && NoDollar self.column_name

def Aggregation.clean : Aggregation → Bool
  | Aggregation.Avg column => column.clean
  | Aggregation.Count column => column.clean
  | Aggregation.Sum column => column.clean
  | Aggregation.Min column => column.clean
  | Aggregation.Max column => column.clean

def QueryColumn.clean : QueryColumn → Bool
  | QueryColumn.AsIs column => column.clean
  | QueryColumn.Aggregation aggregation => aggregation.clean

def QueryColumns.clean : QueryColumns → Bool
  | QueryColumns.AllColumns table => table.clean
  | QueryColumns.SpecifyColumns columns => columns.all QueryColumn.clean

def Condition.clean : Condition → Bool
  | Condition.OnMainTable column _ _ _ => NoDollar column
  | Condition.SameSchemaTable table_name column _ _ _ =>
    NoDollar table_name && NoDollar column
  | Condition.AnotherSchemaTable schema_name table_name column _ _ _ =>
    NoDollar schema_name && NoDollar table_name && NoDollar column

def JoinColumn.clean (self : JoinColumn) : Bool :=
  NoDollar self.joined_column && self.destination_joined_column.clean

def JoinColumns.clean : JoinColumns → Bool
  | JoinColumns.AllColumns => true
  | JoinColumns.SpecifyColumns columns => columns.all JoinColumn.clean

def JoinTable.clean (self : JoinTable) : Bool :=
  (match self.schema_name with
   | some schema_name => NoDollar schema_name
   | none => true) &&
  NoDollar self.table_name && self.query_columns.clean && self.join_columns.clean

def GroupCondition.clean (self : GroupCondition) : Bool := self.aggregation.clean

def SortRule.clean (self : SortRule) : Bool := self.column.clean

def QueryGenerator.clean (self : QueryGenerator) : Bool :=
  self.base_table.clean && self.main_query_columns.clean &&
  self.join_tables.all JoinTable.clean &&
  self.conditions.conditions.all Condition.clean &&
  self.groupings.all Column.clean &&
  self.group_conditions.all GroupCondition.clean &&
  self.sort_rules.all SortRule.clean

end Gen

namespace SqlBase

/-- The VALUES-list shape the specification describes (claim-side definition,
to be compared with the list rendered by `InsertRecords::build_sql`): `R`
parenthesized tuples of `C` placeholders each, numbered row-major, so tuple
`r` holds `$ (C*r+1) .. $ (C*r+C)`. -/
def groupedValuesText (C R : Nat) : String :=
  rustJoin ", " ((List.range R).map (fun r =>
    "(" ++
      rustJoin ", " ((List.range C).map (fun j => "$" ++ Nat.repr (C * r + j + 1))) ++ ")"))

end SqlBase

theorem rustJoin_cons_cons (sep s s' : String) (rest : List String) :
    rustJoin sep (s :: s' :: rest) = s ++ (sep ++ rustJoin sep (s' :: rest)) := by
  simp [rustJoin, String.append_assoc]

theorem phExtract_nil : phExtract [] = [] := by
  simp [phExtract]

theorem phExtract_cons_ne (c : Char) (rest : List Char) (hc : c ≠ '$') :
    phExtract (c :: rest) = phExtract rest := by
  rw [phExtract]
  simp [hc]

theorem phExtract_noDollar (l : List Char) (h : ∀ c ∈ l, c ≠ '$') : phExtract l = [] := by
  induction l with
  | nil => exact phExtract_nil
  | cons c rest ih =>
    rw [phExtract_cons_ne c rest (h c (by simp))]
    exact ih (fun c hc => h c (by simp [hc]))

theorem headNotDigit_takeWhile (b : List Char) (hb : HeadNotDigit b) :
    b.takeWhile Char.isDigit = [] := by
  cases b with
  | nil => rfl
  | cons c rest =>
    have := hb c rfl
    simp [List.takeWhile, this]

theorem headNotDigit_dropWhile (b : List Char) (hb : HeadNotDigit b) :
    b.dropWhile Char.isDigit = b := by
  cases b with
  | nil => rfl
  | cons c rest =>
    have := hb c rfl
    simp [List.dropWhile, this]

theorem takeWhile_append_headNot (a b : List Char) (hb : HeadNotDigit b) :
    (a ++ b).takeWhile Char.isDigit = a.takeWhile Char.isDigit := by
  rw [List.takeWhile_append]
  split
  · rename_i h
    have ha : a.takeWhile Char.isDigit = a := (List.takeWhile_sublist _).eq_of_length h
    rw [headNotDigit_takeWhile b hb, ha, List.append_nil]
  · rfl

theorem dropWhile_append_headNot (a b : List Char) (hb : HeadNotDigit b) :
    (a ++ b).dropWhile Char.isDigit = a.dropWhile Char.isDigit ++ b := by
  induction a with
  | nil => simpa using headNotDigit_dropWhile b hb
  | cons c rest ih =>
    by_cases hc : c.isDigit
    · simpa [List.dropWhile, hc] using ih
    · simp [List.dropWhile, hc]

theorem phExtract_append (b : List Char) (hb : HeadNotDigit b) :
    ∀ (n : Nat) (a : List Char), a.length ≤ n →
      phExtract (a ++ b) = phExtract a ++ phExtract b := by
  intro n
  induction n with
  | zero =>
    intro a ha
    have : a = [] := List.eq_nil_of_length_eq_zero (Nat.le_zero.mp ha)
    simp [this, phExtract_nil]
  | succ n ih =>
    intro a ha
    match a with
    | [] => simp [phExtract_nil]
    | c :: a' =>
      by_cases hc : c = '$'
      · subst hc
        rw [List.cons_append, phExtract, phExtract]
        simp only
        rw [takeWhile_append_headNot a' b hb, dropWhile_append_headNot a' b hb]
        by_cases hds : (a'.takeWhile Char.isDigit).isEmpty
        · simp only [hds, if_true, ite_self]
          exact ih a' (Nat.le_of_succ_le_succ ha)
        · simp only [hds, if_false, ite_false]
          rw [ih (a'.dropWhile Char.isDigit)
            (Nat.le_trans (List.dropWhile_sublist _).length_le (Nat.le_of_succ_le_succ ha))]
          simp
      · rw [List.cons_append, phExtract_cons_ne c _ hc, phExtract_cons_ne c _ hc]
        exact ih a' (Nat.le_of_succ_le_succ ha)

theorem phExtract_append_of_headNot (a b : List Char) (hb : HeadNotDigit b) :
    phExtract (a ++ b) = phExtract a ++ phExtract b :=
  phExtract_append b hb a.length a (Nat.le_refl _)

theorem phExtract_dollar_digits (ds : List Char) (hne : ds ≠ [])
    (hd : ∀ c ∈ ds, c.isDigit = true) : phExtract ('$' :: ds) = [ds] := by
  rw [phExtract]
  have ht : ds.takeWhile Char.isDigit = ds := List.takeWhile_eq_self_iff.mpr hd
  have hdr : ds.dropWhile Char.isDigit = [] := List.dropWhile_eq_nil_iff.mpr hd
  simp [ht, hdr, hne, phExtract_nil]

theorem digitChar_isDigit : ∀ n < 10, (Nat.digitChar n).isDigit = true := by decide

theorem toDigitsCore_all_digits (fuel : Nat) :
    ∀ (n : Nat) (ds : List Char), (∀ c ∈ ds, c.isDigit = true) →
      ∀ c ∈ Nat.toDigitsCore 10 fuel n ds, c.isDigit = true := by
  induction fuel with
  | zero =>
    intro n ds h
    simpa [Nat.toDigitsCore] using h
  | succ f ih =>
    intro n ds h c hc
    rw [Nat.toDigitsCore] at hc
    have hdig : (Nat.digitChar (n % 10)).isDigit = true :=
      digitChar_isDigit (n % 10) (Nat.mod_lt _ (by norm_num))
    by_cases hz : n / 10 = 0
    · simp only [hz, if_true] at hc
      rw [List.mem_cons] at hc
      rcases hc with hc | hc
      · simpa [hc] using hdig
      · exact h c hc
    · simp only [hz, if_false] at hc
      refine ih (n / 10) (Nat.digitChar (n % 10) :: ds) ?_ c hc
      intro c' hc'
      rw [List.mem_cons] at hc'
      rcases hc' with hc' | hc'
      · simpa [hc'] using hdig
      · exact h c' hc'

theorem toDigitsCore_length_mono (fuel : Nat) :
    ∀ (n : Nat) (ds : List Char), ds.length ≤ (Nat.toDigitsCore 10 fuel n ds).length := by
  induction fuel with
  | zero => intro n ds; simp [Nat.toDigitsCore]
  | succ f ih =>
    intro n ds
    rw [Nat.toDigitsCore]
    by_cases hz : n / 10 = 0
    · simp [hz]
    · simp only [hz, if_false]
      calc ds.length ≤ (Nat.digitChar (n % 10) :: ds).length := by simp
        _ ≤ _ := ih (n / 10) _

theorem repr_all_digits (n : Nat) : ∀ c ∈ (Nat.repr n).data, c.isDigit = true := by
  intro c hc
  have hrepr : (Nat.repr n).data = Nat.toDigits 10 n := rfl
  rw [hrepr] at hc
  exact toDigitsCore_all_digits (n + 1) n [] (by intro c hc; cases hc) c hc

theorem repr_ne_nil (n : Nat) : (Nat.repr n).data ≠ [] := by
  have hrepr : (Nat.repr n).data = Nat.toDigits 10 n := rfl
  rw [hrepr, Nat.toDigits, Nat.toDigitsCore]
  by_cases hz : n / 10 = 0
  · simp [hz]
  · simp only [hz, if_false]
    intro hnil
    have hlen := toDigitsCore_length_mono n (n / 10) [Nat.digitChar (n % 10)]
    rw [hnil] at hlen
    simp at hlen

theorem repr_noDollar (n : Nat) : ∀ c ∈ (Nat.repr n).data, c ≠ '$' := by
  intro c hc heq
  have hd := repr_all_digits n c hc
  rw [heq] at hd
  simp [Char.isDigit] at hd

theorem phExtract_frag (pre : String) (n : Nat) (hpre : NoDollar pre = true) :
    phExtract (pre ++ " $" ++ Nat.repr n).data = [(Nat.repr n).data] := by
  have h1 : (pre ++ " $" ++ Nat.repr n).data
      = (pre.data ++ [' ']) ++ ('$' :: (Nat.repr n).data) := by
    simp [String.data_append]
  rw [h1, phExtract_append_of_headNot]
  · rw [phExtract_noDollar (pre.data ++ [' '])]
    · rw [phExtract_dollar_digits _ (repr_ne_nil n) (repr_all_digits n)]
      simp
    · intro c hc
      rcases List.mem_append.mp hc with hc | hc
      · exact of_decide_eq_true (List.all_eq_true.mp hpre c hc)
      · simp at hc
        subst hc
        decide
  · intro c hc
    simp at hc
    subst hc
    decide

theorem phExtract_skip_noDollar (a : List Char) (X : List Char)
    (h : ∀ c ∈ a, c ≠ '$') : phExtract (a ++ X) = phExtract X := by
  induction a with
  | nil => simp
  | cons c rest ih =>
    rw [List.cons_append, phExtract_cons_ne c _ (h c (by simp))]
    exact ih (fun c hc => h c (by simp [hc]))

theorem asString_data (s : String) : s.data.asString = s := rfl

/-- Extraction distributes over `rustJoin` with a separator whose first
character is not a digit and which is dollar-free. -/
theorem phExtract_rustJoin (sep : String) (hne : sep.data ≠ [])
    (hhead : HeadNotDigit sep.data) (hnd : ∀ c ∈ sep.data, c ≠ '$') :
    ∀ pieces : List String,
      phExtract (rustJoin sep pieces).data
        = (pieces.map (fun p => phExtract p.data)).flatten := by
  intro pieces
  induction pieces with
  | nil => simp [rustJoin, phExtract_nil]
  | cons s rest ih =>
    cases rest with
    | nil => simp [rustJoin]
    | cons s' rest' =>
      rw [rustJoin_cons_cons]
      have hdata : (s ++ (sep ++ rustJoin sep (s' :: rest'))).data
          = s.data ++ (sep.data ++ (rustJoin sep (s' :: rest')).data) := by
        simp [String.data_append]
      rw [hdata, phExtract_append_of_headNot]
      · rw [phExtract_skip_noDollar sep.data _ hnd, ih]
        simp
      · intro c hc
        cases hsep : sep.data with
        | nil => exact absurd hsep hne
        | cons c0 tail =>
          rw [hsep] at hc
          simp at hc
          rw [← hc]
          exact hhead c0 (by rw [hsep]; rfl)

theorem headNotDigit_space : HeadNotDigit " ".data := by
  intro c hc
  simp at hc
  subst hc
  decide

theorem noDollar_space : ∀ c ∈ " ".data, c ≠ '$' := by decide

theorem headNotDigit_commaSpace : HeadNotDigit ", ".data := by
  intro c hc
  simp at hc
  subst hc
  decide

theorem noDollar_commaSpace : ∀ c ∈ ", ".data, c ≠ '$' := by decide

theorem phExtract_rustJoin_space (pieces : List String) :
    phExtract (rustJoin " " pieces).data
      = (pieces.map (fun p => phExtract p.data)).flatten :=
  phExtract_rustJoin " " (by decide) headNotDigit_space noDollar_space pieces

theorem phExtract_rustJoin_commaSpace (pieces : List String) :
    phExtract (rustJoin ", " pieces).data
      = (pieces.map (fun p => phExtract p.data)).flatten :=
  phExtract_rustJoin ", " (by decide) headNotDigit_commaSpace noDollar_commaSpace pieces

theorem noDollar_append (a b : String) :
    NoDollar (a ++ b) = (NoDollar a && NoDollar b) := by
  simp [NoDollar, String.data_append, List.all_append]

theorem noDollar_chars (s : String) (h : NoDollar s = true) : ∀ c ∈ s.data, c ≠ '$' := by
  intro c hc
  exact of_decide_eq_true (List.all_eq_true.mp h c hc)

theorem phExtract_of_noDollar (s : String) (h : NoDollar s = true) :
    phExtract s.data = [] :=
  phExtract_noDollar s.data (noDollar_chars s h)

namespace Access

theorem condition_text_noDollar (c : Condition) (h : c.clean = true) :
    NoDollar c.generate_statement_text = true := by
  unfold Condition.clean at h
  unfold Condition.generate_statement_text
  cases hj : c.is_joined_table_condition with
  | Yes s t =>
    rw [hj] at h
    simp only [Bool.and_eq_true] at h
    obtain ⟨hk, hs, ht⟩ := h
    cases c.operator <;>
      simp only [] <;>
      split <;> try split
    all_goals simp_all [noDollar_append, NoDollar]
  | No =>
    rw [hj] at h
    simp only [Bool.and_eq_true] at h
    cases c.operator <;> simp_all [noDollar_append, NoDollar]

theorem condLoop_extract (pairs : List (Condition × LogicalOperator)) :
    ∀ k : Nat, (∀ p ∈ pairs, p.1.clean = true) →
      ((condLoop pairs k).map (fun p => phExtract p.data)).flatten
        = (List.range' k pairs.length).map (fun i => (Nat.repr i).data) := by
  induction pairs with
  | nil => intro k _; simp [condLoop]
  | cons p rest ih =>
    intro k h
    obtain ⟨condition, logic⟩ := p
    have hfrag : phExtract (condition.generate_statement_text ++ " $" ++ Nat.repr k).data
        = [(Nat.repr k).data] :=
      phExtract_frag _ k (condition_text_noDollar _ (h (condition, logic) (by simp)))
    have hfrag2 : phExtract (condition.generate_statement_text.data ++ ' ' :: '$' :: (Nat.repr k).data)
        = [(Nat.repr k).data] := by
      simpa [String.data_append] using hfrag
    have hrest := ih (k + 1) (fun p hp => h p (by simp [hp]))
    have hAnd : phExtract "AND".data = [] := phExtract_noDollar _ (by decide)
    have hOr : phExtract "OR".data = [] := phExtract_noDollar _ (by decide)
    cases logic <;>
      simp [condLoop, hfrag2, hrest, hAnd, hOr, List.range'_succ]

/-- Placeholder numbers of the rendered condition clause: with start index `s`
they are exactly `$ (s+1) .. $ (s+n)` where `n` is the number of rendered
predicates. -/
theorem conditions_placeholders (c : Conditions) (s : Nat)
    (h : ∀ p ∈ c.conditions.zip c.logics, p.1.clean = true) :
    placeholders (c.generate_statement_text s)
      = (List.range' (s + 1) (c.conditions.zip c.logics).length).map Nat.repr := by
  unfold Conditions.generate_statement_text
  cases hz : c.conditions.zip c.logics with
  | nil => simp [placeholders, rustJoin, phExtract_nil]
  | cons pair rest =>
    rw [hz] at h
    have hWhere : phExtract "WHERE".data = [] := phExtract_noDollar _ (by decide)
    have hcl := condLoop_extract (pair :: rest) (s + 1) h
    simp only [placeholders, phExtract_rustJoin_space, List.map_cons, hWhere,
      List.flatten_cons, List.nil_append, hcl]
    rw [List.map_map]
    apply List.map_congr_left
    intro i _
    exact asString_data (Nat.repr i)

end Access

theorem noDollar_empty : NoDollar "" = true := rfl

theorem noDollar_rustJoin (sep : String) (hsep : NoDollar sep = true) :
    ∀ pieces : List String, (∀ p ∈ pieces, NoDollar p = true) →
      NoDollar (rustJoin sep pieces) = true := by
  intro pieces
  induction pieces with
  | nil => intro _; exact noDollar_empty
  | cons s rest ih =>
    intro h
    cases rest with
    | nil => simpa [rustJoin] using h s (by simp)
    | cons s' rest' =>
      rw [rustJoin_cons_cons, noDollar_append, noDollar_append]
      simp only [Bool.and_eq_true]
      exact ⟨h s (by simp), hsep, ih (fun p hp => h p (by simp [hp]))⟩

namespace Gen

theorem table_name_noDollar (t : Table) (h : t.clean = true) :
    NoDollar t.get_table_name = true := by
  cases t <;> simp_all [Table.clean, Table.get_table_name, noDollar_append, NoDollar]

theorem column_display_noDollar (c : Column) (h : c.clean = true) :
    NoDollar c.display = true := by
  obtain ⟨t, name⟩ := c
  simp only [Column.clean, Bool.and_eq_true] at h
  simp [Column.display, noDollar_append, table_name_noDollar t h.1]
  simp_all [NoDollar]

theorem operator_display_noDollar (op : ConditionOperator) :
    NoDollar op.display = true := by
  cases op <;> decide

theorem bind_display_noDollar (b : BindMethod) : NoDollar b.display = true := by
  cases b <;> decide

theorem aggregation_display_noDollar (a : Aggregation) (h : a.clean = true) :
    NoDollar a.display = true := by
  cases a <;>
    simp_all [Aggregation.clean, Aggregation.display, noDollar_append,
      column_display_noDollar] <;>
    decide

theorem query_column_noDollar (qc : QueryColumn) (h : qc.clean = true) :
    NoDollar qc.get_statement = true := by
  cases qc with
  | AsIs column => exact column_display_noDollar column h
  | Aggregation aggregation => exact aggregation_display_noDollar aggregation h

theorem query_columns_noDollar (qcs : QueryColumns) (h : qcs.clean = true) :
    NoDollar qcs.get_query_columns_statement = true := by
  cases qcs with
  | AllColumns table =>
    simp [QueryColumns.get_query_columns_statement, noDollar_append,
      table_name_noDollar table h]
    decide
  | SpecifyColumns columns =>
    refine noDollar_rustJoin ", " (by decide) _ ?_
    intro p hp
    rw [List.mem_map] at hp
    obtain ⟨qc, hqc, rfl⟩ := hp
    exact query_column_noDollar qc (by
      simp only [QueryColumns.clean, List.all_eq_true] at h
      exact h qc hqc)

theorem joinOnPieces_noDollar (table_name : String) (hT : NoDollar table_name = true) :
    ∀ (columns : List JoinColumn) (isFirst : Bool),
      (∀ jc ∈ columns, jc.clean = true) →
      ∀ p ∈ joinOnPieces table_name columns isFirst, NoDollar p = true := by
  intro columns
  induction columns with
  | nil => intro isFirst _ p hp; simp [joinOnPieces] at hp
  | cons column rest ih =>
    intro isFirst h p hp
    have hcol := h column (by simp)
    simp only [JoinColumn.clean, Bool.and_eq_true] at hcol
    have hmain : NoDollar
        (column.destination_joined_column.display ++ " " ++ column.operator.display ++ " " ++
          table_name ++ "." ++ column.joined_column) = true := by
      simp [noDollar_append, column_display_noDollar _ hcol.2,
        operator_display_noDollar, hT, hcol.1]
      decide
    cases isFirst with
    | true =>
      simp [joinOnPieces] at hp
      rcases hp with rfl | hp
      · exact hmain
      · exact ih false (fun jc hjc => h jc (by simp [hjc])) p hp
    | false =>
      simp [joinOnPieces] at hp
      rcases hp with rfl | rfl | hp
      · exact bind_display_noDollar column.bind_method
      · exact hmain
      · exact ih false (fun jc hjc => h jc (by simp [hjc])) p hp

theorem join_statement_noDollar (jt : JoinTable) (main_table_name : String)
    (h : jt.clean = true) :
    NoDollar (jt.get_join_statement main_table_name) = true := by
  obtain ⟨schema_name, table_name, query_columns, join_columns, join_method⟩ := jt
  have hT : NoDollar (JoinTable.get_table_name
      ⟨schema_name, table_name, query_columns, join_columns, join_method⟩) = true := by
    simp only [JoinTable.clean, Bool.and_eq_true] at h
    unfold JoinTable.get_table_name
    cases schema_name with
    | some schema_name =>
      simp only at h ⊢
      simp [noDollar_append, h.1.1.1, h.1.1.2]
      decide
    | none => exact h.1.1.2
  unfold JoinTable.get_join_statement
  refine noDollar_rustJoin " " (by decide) _ ?_
  intro p hp
  simp only [List.mem_cons, List.not_mem_nil, or_false] at hp
  rcases hp with rfl | rfl | rfl
  · cases join_method <;> decide
  · exact hT
  · simp only [JoinTable.clean, Bool.and_eq_true] at h
    cases join_columns with
    | AllColumns =>
      change NoDollar "TRUE" = true
      decide
    | SpecifyColumns columns =>
      refine noDollar_rustJoin " " (by decide) _ ?_
      intro q hq
      refine joinOnPieces_noDollar _ hT columns true ?_ q hq
      intro jc hjc
      have hall := h.2
      simp only [JoinColumns.clean, List.all_eq_true] at hall
      exact hall jc hjc

theorem join_total_noDollar (join_tables : List JoinTable) (main_table_name : String)
    (k : Nat) (h : ∀ jt ∈ join_tables, jt.clean = true) :
    NoDollar (JoinTables.get_total_statement join_tables main_table_name k) = true := by
  unfold JoinTables.get_total_statement
  refine noDollar_rustJoin " " (by decide) _ ?_
  intro p hp
  rw [List.mem_map] at hp
  obtain ⟨jt, hjt, rfl⟩ := hp
  exact join_statement_noDollar jt main_table_name (h jt hjt)

theorem join_query_columns_noDollar (join_tables : List JoinTable)
    (h : ∀ jt ∈ join_tables, jt.clean = true) :
    NoDollar (JoinTables.get_query_columns join_tables) = true := by
  refine noDollar_rustJoin ", " (by decide) _ ?_
  intro p hp
  rw [List.mem_map] at hp
  obtain ⟨jt, hjt, rfl⟩ := hp
  have hc := h jt hjt
  obtain ⟨schema_name, table_name, query_columns, join_columns, join_method⟩ := jt
  simp only [JoinTable.clean, Bool.and_eq_true] at hc
  exact query_columns_noDollar _ hc.1.2

theorem grouping_statement_noDollar (groupings : List Column)
    (h : ∀ c ∈ groupings, c.clean = true) :
    NoDollar (Groupings.get_grouping_statement groupings) = true := by
  unfold Groupings.get_grouping_statement
  rw [noDollar_append, noDollar_append]
  simp only [Bool.and_eq_true]
  refine ⟨⟨by decide, by decide⟩, ?_⟩
  refine noDollar_rustJoin ", " (by decide) _ ?_
  intro p hp
  rw [List.mem_map] at hp
  obtain ⟨c, hc, rfl⟩ := hp
  exact column_display_noDollar c (h c hc)

theorem sort_statement_noDollar (sort_rules : List SortRule)
    (h : ∀ s ∈ sort_rules, s.clean = true) :
    NoDollar (SortRules.get_sort_rule_statement sort_rules) = true := by
  unfold SortRules.get_sort_rule_statement
  rw [noDollar_append]
  simp only [Bool.and_eq_true]
  refine ⟨by decide, ?_⟩
  refine noDollar_rustJoin ", " (by decide) _ ?_
  intro p hp
  rw [List.mem_map] at hp
  obtain ⟨s, hs, rfl⟩ := hp
  unfold SortRule.get_sort_statement
  simp [noDollar_append, column_display_noDollar _ (h s hs)]
  cases s.sort_method <;> decide

theorem condition_qualified_noDollar (c : Condition) (h : c.clean = true) :
    NoDollar (c.qualified_column ++ " " ++ c.get_operator.display) = true := by
  rw [noDollar_append, noDollar_append]
  simp only [Bool.and_eq_true]
  refine ⟨⟨?_, by decide⟩, operator_display_noDollar _⟩
  cases c <;>
    simp_all [Condition.clean, Condition.qualified_column, noDollar_append, NoDollar]

theorem whereLoop_extract (pairs : List (Condition × BindMethod)) :
    ∀ k : Nat, (∀ p ∈ pairs, p.1.clean = true) →
      ((whereLoop pairs k).map (fun p => phExtract p.data)).flatten
        = (List.range' k pairs.length).map (fun i => (Nat.repr i).data) := by
  induction pairs with
  | nil => intro k _; simp [whereLoop]
  | cons p rest ih =>
    intro k h
    obtain ⟨condition, bind_method⟩ := p
    have hpre : NoDollar (condition.qualified_column ++ " " ++ condition.get_operator.display)
        = true :=
      condition_qualified_noDollar condition (h (condition, bind_method) (by simp))
    have hfrag := phExtract_frag
      (condition.qualified_column ++ " " ++ condition.get_operator.display) k hpre
    have hfrag2 : phExtract (condition.qualified_column.data ++
        ' ' :: (condition.get_operator.display.data ++ ' ' :: '$' :: (Nat.repr k).data))
        = [(Nat.repr k).data] := by
      simpa [String.data_append] using hfrag
    have hrest := ih (k + 1) (fun p hp => h p (by simp [hp]))
    have hAnd : phExtract "AND".data = [] := phExtract_noDollar _ (by decide)
    have hOr : phExtract "OR".data = [] := phExtract_noDollar _ (by decide)
    cases bind_method <;>
      simp [whereLoop, hfrag2, hrest, hAnd, hOr, List.range'_succ, String.data_append]

/-- Placeholder numbers of the rendered (spec-modelled) WHERE clause: with
start placeholder `s` they are exactly `s, s+1, ...`, one per rendered
predicate pair. -/
theorem gen_where_placeholders (c : Conditions) (s : Nat)
    (h : ∀ p ∈ c.conditions.zip c.bind_methods, p.1.clean = true) :
    placeholders (c.get_total_statement s)
      = (List.range' s (c.conditions.zip c.bind_methods).length).map Nat.repr := by
  unfold Conditions.get_total_statement
  have hWhere : phExtract "WHERE".data = [] := phExtract_noDollar _ (by decide)
  have hcl := whereLoop_extract (c.conditions.zip c.bind_methods) s h
  simp only [placeholders, phExtract_rustJoin_space, List.map_cons, hWhere,
    List.flatten_cons, List.nil_append, hcl]
  rw [List.map_map]
  apply List.map_congr_left
  intro i _
  exact asString_data (Nat.repr i)

theorem group_condition_frag (g : GroupCondition) (k : Nat) (h : g.clean = true) :
    phExtract (g.get_statement k).data = [(Nat.repr k).data] := by
  have hpre : NoDollar (g.aggregation.display ++ " " ++ g.condition_operator.display) = true := by
    simp [noDollar_append, aggregation_display_noDollar g.aggregation h,
      operator_display_noDollar]
    decide
  have hfrag := phExtract_frag (g.aggregation.display ++ " " ++ g.condition_operator.display) k hpre
  cases hr : g.ref_value with
  | Variable v =>
    unfold GroupCondition.get_statement
    rw [hr]
    simpa [String.data_append] using hfrag

theorem havingLoop_extract (gcs : List GroupCondition) :
    ∀ k : Nat, (∀ g ∈ gcs, g.clean = true) →
      ((havingLoop gcs k).map (fun p => phExtract p.data)).flatten
        = (List.range' k gcs.length).map (fun i => (Nat.repr i).data) := by
  induction gcs with
  | nil => intro k _; simp [havingLoop]
  | cons g rest ih =>
    intro k h
    have hone : g.get_parameters_number = 1 := by
      cases hr : g.ref_value with
      | Variable v => simp [GroupCondition.get_parameters_number, hr,
          ReferenceValue.get_parameter_num]
    have hfrag := group_condition_frag g k (h g (by simp))
    have hrest := ih (k + 1) (fun g hg => h g (by simp [hg]))
    simp [havingLoop, hone, hfrag, hrest, List.range'_succ]

/-- Placeholder numbers of the rendered HAVING clause: with start placeholder
`s` they are exactly `s, s+1, ...`, one per group condition. -/
theorem gen_having_placeholders (gcs : List GroupCondition) (s : Nat)
    (h : ∀ g ∈ gcs, g.clean = true) :
    placeholders (GroupConditions.get_total_statement gcs s)
      = (List.range' s gcs.length).map Nat.repr := by
  unfold GroupConditions.get_total_statement
  have hHaving : phExtract "HAVING".data = [] := phExtract_noDollar _ (by decide)
  have hcl := havingLoop_extract gcs s h
  simp only [placeholders, phExtract_rustJoin_space, List.map_cons, hHaving,
    List.flatten_cons, List.nil_append, hcl]
  rw [List.map_map]
  apply List.map_congr_left
  intro i _
  exact asString_data (Nat.repr i)

theorem gen_where_extract (c : Conditions) (s : Nat)
    (h : ∀ p ∈ c.conditions.zip c.bind_methods, p.1.clean = true) :
    phExtract (c.get_total_statement s).data
      = (List.range' s (c.conditions.zip c.bind_methods).length).map
          (fun i => (Nat.repr i).data) := by
  unfold Conditions.get_total_statement
  rw [phExtract_rustJoin_space]
  simp [phExtract_noDollar "WHERE".data (by decide),
    whereLoop_extract (c.conditions.zip c.bind_methods) s h]

theorem gen_having_extract (gcs : List GroupCondition) (s : Nat)
    (h : ∀ g ∈ gcs, g.clean = true) :
    phExtract (GroupConditions.get_total_statement gcs s).data
      = (List.range' s gcs.length).map (fun i => (Nat.repr i).data) := by
  unfold GroupConditions.get_total_statement
  rw [phExtract_rustJoin_space]
  simp [phExtract_noDollar "HAVING".data (by decide), havingLoop_extract gcs s h]

theorem query_statement_extract (q : QueryGenerator)
    (hstart : q.placeholder_start_num = 1)
    (hlen : q.conditions.bind_methods.length = q.conditions.conditions.length)
    (hclean : q.clean = true) :
    phExtract q.get_statement.data
      = (List.range' 1 (q.conditions.len + q.group_conditions.length)).map
          (fun i => (Nat.repr i).data) := by
  have hc := hclean
  simp only [QueryGenerator.clean, Bool.and_eq_true] at hc
  obtain ⟨⟨⟨⟨⟨⟨hbase, hqc⟩, hjoins⟩, hconds⟩, hgroup⟩, hgconds⟩, hsorts⟩ := hc
  rw [List.all_eq_true] at hjoins hconds hgroup hgconds hsorts
  have hzip : ∀ p ∈ q.conditions.conditions.zip q.conditions.bind_methods, p.1.clean = true := by
    intro p hp
    exact hconds p.1 (List.of_mem_zip hp).1
  have hziplen : (q.conditions.conditions.zip q.conditions.bind_methods).length
      = q.conditions.len := by
    simp [List.length_zip, hlen, Conditions.len]
  have hmainqc : NoDollar q.main_query_columns.get_query_columns_statement = true :=
    query_columns_noDollar _ hqc
  have hjoinqc : NoDollar (JoinTables.get_query_columns q.join_tables) = true :=
    join_query_columns_noDollar _ hjoins
  have hcols : phExtract (rustJoin ", "
      ([q.main_query_columns.get_query_columns_statement] ++
        (if q.join_tables.length ≠ 0 then [JoinTables.get_query_columns q.join_tables] else []))).data
      = [] := by
    apply phExtract_of_noDollar
    apply noDollar_rustJoin ", " (by decide)
    intro p hp
    rcases List.mem_append.mp hp with hp | hp
    · simp at hp; subst hp; exact hmainqc
    · by_cases hj : q.join_tables.length ≠ 0
      · simp [hj] at hp; subst hp; exact hjoinqc
      · simp [hj] at hp
  have hfrom : phExtract ("FROM " ++ q.base_table.get_table_name).data = [] := by
    apply phExtract_of_noDollar
    rw [noDollar_append]
    simp [table_name_noDollar _ hbase]
    decide
  have hA : ((if q.join_tables.length ≠ 0 then
        [rustJoin " " (if q.join_tables.length ≠ 0 then
          [JoinTables.get_total_statement q.join_tables q.base_table.get_table_name
            q.placeholder_start_num] else [])]
      else []).map (fun p => phExtract p.data)).flatten = [] := by
    by_cases hj : q.join_tables.length ≠ 0
    · rw [if_pos hj, if_pos hj]
      simp only [List.map_cons, List.map_nil, List.flatten_cons,
        List.flatten_nil, List.append_nil]
      apply phExtract_of_noDollar
      apply noDollar_rustJoin " " (by decide)
      intro p hp
      simp at hp
      subst hp
      exact join_total_noDollar _ _ _ hjoins
    · rw [if_neg hj]
      simp
  have hB : ((if q.conditions.len ≠ 0 then
        [q.conditions.get_total_statement q.placeholder_start_num] else []).map
          (fun p => phExtract p.data)).flatten
      = (List.range' 1 q.conditions.len).map (fun i => (Nat.repr i).data) := by
    by_cases hw : q.conditions.len ≠ 0
    · rw [if_pos hw]
      simp only [List.map_cons, List.map_nil, List.flatten_cons,
        List.flatten_nil, List.append_nil]
      rw [gen_where_extract _ _ hzip, hziplen, hstart]
    · rw [if_neg hw]
      have hz : q.conditions.len = 0 := by omega
      simp [hz]
  have hC : ((if q.groupings.length ≠ 0 then
        [Groupings.get_grouping_statement q.groupings] else []).map
          (fun p => phExtract p.data)).flatten = [] := by
    by_cases hg : q.groupings.length ≠ 0
    · rw [if_pos hg]
      simp only [List.map_cons, List.map_nil, List.flatten_cons,
        List.flatten_nil, List.append_nil]
      exact phExtract_of_noDollar _ (grouping_statement_noDollar _ hgroup)
    · rw [if_neg hg]
      simp
  have hD : ((if q.group_conditions.length ≠ 0 then
        [GroupConditions.get_total_statement q.group_conditions
          (q.placeholder_start_num + q.conditions.len)] else []).map
          (fun p => phExtract p.data)).flatten
      = (List.range' (1 + q.conditions.len) q.group_conditions.length).map
          (fun i => (Nat.repr i).data) := by
    by_cases hh : q.group_conditions.length ≠ 0
    · rw [if_pos hh]
      simp only [List.map_cons, List.map_nil, List.flatten_cons,
        List.flatten_nil, List.append_nil]
      rw [gen_having_extract _ _ hgconds, hstart]
    · rw [if_neg hh]
      have hz : q.group_conditions.length = 0 := by omega
      simp [hz]
  have hE : ((if q.sort_rules.length ≠ 0 then
        [SortRules.get_sort_rule_statement q.sort_rules] else []).map
          (fun p => phExtract p.data)).flatten = [] := by
    by_cases hs : q.sort_rules.length ≠ 0
    · rw [if_pos hs]
      simp only [List.map_cons, List.map_nil, List.flatten_cons,
        List.flatten_nil, List.append_nil]
      exact phExtract_of_noDollar _ (sort_statement_noDollar _ hsorts)
    · rw [if_neg hs]
      simp
  have hSel : phExtract "SELECT".data = [] := phExtract_noDollar _ (by decide)
  unfold QueryGenerator.get_statement
  rw [phExtract_rustJoin_space]
  simp only [List.map_append, List.flatten_append, List.map_cons, List.map_nil,
    List.flatten_cons, List.flatten_nil, hSel, hcols, hfrom, hA, hB, hC, hD, hE,
    List.nil_append, List.append_nil]
  rw [← List.map_append]
  congr 1
  have := List.range'_append 1 q.conditions.len q.group_conditions.length 1
  simp only [Nat.one_mul] at this
  rw [this]
  congr 1
  omega

end Gen

theorem placeholders_of_extract (s : String) (l : List Nat)
    (h : phExtract s.data = l.map (fun i => (Nat.repr i).data)) :
    placeholders s = l.map Nat.repr := by
  rw [placeholders, h, List.map_map]
  apply List.map_congr_left
  intro i _
  exact asString_data (Nat.repr i)

theorem rustJoin_head_pre (sep pre x : String) (xs : List String) :
    rustJoin sep ((pre ++ x) :: xs) = pre ++ rustJoin sep (x :: xs) := by
  cases xs with
  | nil => simp [rustJoin]
  | cons y ys =>
    rw [rustJoin_cons_cons, rustJoin_cons_cons]
    simp [String.append_assoc]

theorem rustJoin_last_suf (sep : String) :
    ∀ (xs : List String) (x suf : String),
      rustJoin sep (xs ++ [x ++ suf]) = rustJoin sep (xs ++ [x]) ++ suf := by
  intro xs
  induction xs with
  | nil => intro x suf; simp [rustJoin]
  | cons y ys ih =>
    intro x suf
    cases ys with
    | nil =>
      simp [rustJoin, String.append_assoc]
    | cons z zs =>
      have h2 := ih x suf
      simp only [List.cons_append] at h2
      simp only [List.cons_append, rustJoin_cons_cons, h2, String.append_assoc]

theorem rustJoin_append (sep : String) :
    ∀ (A B : List String), A ≠ [] → B ≠ [] →
      rustJoin sep (A ++ B) = rustJoin sep A ++ sep ++ rustJoin sep B := by
  intro A
  induction A with
  | nil => intro B hA _; exact absurd rfl hA
  | cons a as ih =>
    intro B _ hB
    cases as with
    | nil =>
      cases B with
      | nil => exact absurd rfl hB
      | cons b bs => simp [rustJoin]
    | cons a' as' =>
      have h2 := ih B (by simp) hB
      simp only [List.cons_append] at h2
      simp only [List.cons_append, rustJoin_cons_cons, h2, String.append_assoc]

namespace SqlBase

theorem setLoop_extract (sets : List UpdateSet) :
    ∀ k : Nat, (∀ u ∈ sets, NoDollar u.column = true) →
      ((setLoop sets k).map (fun p => phExtract p.data)).flatten
        = (List.range' k sets.length).map (fun i => (Nat.repr i).data) := by
  induction sets with
  | nil => intro k _; simp [setLoop]
  | cons u rest ih =>
    intro k h
    have hpre : NoDollar (u.column ++ " =") = true := by
      rw [noDollar_append]
      simp [h u (by simp)]
      decide
    have hfrag := phExtract_frag (u.column ++ " =") k hpre
    have hfrag2 : phExtract (u.column.data ++ ' ' :: '=' :: ' ' :: '$' :: (Nat.repr k).data)
        = [(Nat.repr k).data] := by
      simpa [String.data_append] using hfrag
    have hrest := ih (k + 1) (fun u hu => h u (by simp [hu]))
    simp [setLoop, hrest, List.range'_succ, String.data_append, hfrag2]

theorem update_build_extract (us : UpdateSets) (t : String) (ht : NoDollar t = true)
    (h : ∀ u ∈ us.update_sets, NoDollar u.column = true) :
    phExtract (us.build_sql t).data
      = (List.range' 1 us.update_sets.length).map (fun i => (Nat.repr i).data) := by
  unfold UpdateSets.build_sql
  rw [phExtract_rustJoin_space]
  have hup : phExtract "UPDATE".data = [] := phExtract_noDollar _ (by decide)
  have hT : phExtract t.data = [] := phExtract_of_noDollar t ht
  have hset : phExtract
      ('S' :: 'E' :: 'T' :: ' ' :: (rustJoin ", " (setLoop us.update_sets 1)).data)
      = (List.range' 1 us.update_sets.length).map (fun i => (Nat.repr i).data) := by
    rw [phExtract_cons_ne 'S' _ (by decide), phExtract_cons_ne 'E' _ (by decide),
      phExtract_cons_ne 'T' _ (by decide), phExtract_cons_ne ' ' _ (by decide),
      phExtract_rustJoin_commaSpace, setLoop_extract us.update_sets 1 h]
  simp [hup, hT, hset, String.data_append]

theorem insertPiece_extract (keys_len i : Nat) :
    phExtract (insertPlaceholderPiece keys_len i).data = [(Nat.repr i).data] := by
  have hdollar := phExtract_dollar_digits (Nat.repr i).data (repr_ne_nil i) (repr_all_digits i)
  unfold insertPlaceholderPiece
  by_cases h0 : i % keys_len = 0
  · rw [if_pos h0]
    have hdata : ("$" ++ Nat.repr i ++ ")").data = ('$' :: (Nat.repr i).data) ++ [')'] := by
      simp [String.data_append]
    rw [hdata, phExtract_append_of_headNot _ _ ?_]
    · rw [hdollar]
      simp [phExtract_cons_ne ')' [] (by decide), phExtract_nil]
    · intro c hc
      simp at hc
      subst hc
      decide
  · rw [if_neg h0]
    by_cases h1 : i % keys_len = 1
    · rw [if_pos h1]
      have hdata : ("($" ++ Nat.repr i).data = '(' :: '$' :: (Nat.repr i).data := by
        simp [String.data_append]
      rw [hdata, phExtract_cons_ne '(' _ (by decide), hdollar]
    · rw [if_neg h1]
      have hdata : ("$" ++ Nat.repr i).data = '$' :: (Nat.repr i).data := by
        simp [String.data_append]
      rw [hdata, hdollar]

theorem insert_pieces_extract (keys_len : Nat) (l : List Nat) :
    ((l.map (insertPlaceholderPiece keys_len)).map (fun p => phExtract p.data)).flatten
      = l.map (fun i => (Nat.repr i).data) := by
  induction l with
  | nil => simp
  | cons i rest ih =>
    simp only [List.map_cons, List.flatten_cons, insertPiece_extract, ih]
    simp

theorem insert_build_extract (ir : InsertRecords) (t : String) (ht : NoDollar t = true)
    (hkeys : ∀ k ∈ ir.keys, NoDollar k = true) :
    phExtract (ir.build_sql t).data
      = (List.range' 1 (ir.keys.length * ir.insert_records.length)).map
          (fun i => (Nat.repr i).data) := by
  unfold InsertRecords.build_sql
  rw [phExtract_rustJoin_space]
  have hins : phExtract "INSERT INTO".data = [] := phExtract_noDollar _ (by decide)
  have hT : phExtract t.data = [] := phExtract_of_noDollar t ht
  have hpre : NoDollar ("(" ++ rustJoin ", " ir.keys ++ ") VALUES ") = true := by
    rw [noDollar_append, noDollar_append]
    simp only [Bool.and_eq_true]
    exact ⟨⟨by decide, noDollar_rustJoin ", " (by decide) _ hkeys⟩, by decide⟩
  have hkeysND : phExtract (rustJoin ", " ir.keys).data = [] :=
    phExtract_of_noDollar _ (noDollar_rustJoin ", " (by decide) _ hkeys)
  have hvals : phExtract
      ('(' :: ((rustJoin ", " ir.keys).data ++
        ')' :: ' ' :: 'V' :: 'A' :: 'L' :: 'U' :: 'E' :: 'S' :: ' ' ::
        (rustJoin ", " ((List.range' 1 (ir.keys.length * ir.insert_records.length)).map
          (insertPlaceholderPiece ir.keys.length))).data))
      = (List.range' 1 (ir.keys.length * ir.insert_records.length)).map
          (fun i => (Nat.repr i).data) := by
    rw [phExtract_cons_ne '(' _ (by decide)]
    rw [phExtract_append_of_headNot _ _ (by intro c hc; simp at hc; subst hc; decide)]
    rw [hkeysND]
    rw [phExtract_cons_ne ')' _ (by decide), phExtract_cons_ne ' ' _ (by decide),
      phExtract_cons_ne 'V' _ (by decide), phExtract_cons_ne 'A' _ (by decide),
      phExtract_cons_ne 'L' _ (by decide), phExtract_cons_ne 'U' _ (by decide),
      phExtract_cons_ne 'E' _ (by decide), phExtract_cons_ne 'S' _ (by decide),
      phExtract_cons_ne ' ' _ (by decide)]
    rw [phExtract_rustJoin_commaSpace, insert_pieces_extract]
    simp
  simp [hins, hT, hvals, String.data_append]

theorem insert_block (m r : Nat) :
    rustJoin ", " ((List.range' ((m + 2) * r + 1) (m + 2)).map
        (insertPlaceholderPiece (m + 2)))
      = "(" ++ rustJoin ", " ((List.range (m + 2)).map
          (fun j => "$" ++ Nat.repr ((m + 2) * r + j + 1))) ++ ")" := by
  have hsplit : List.range' ((m + 2) * r + 1) (m + 2)
      = ((m + 2) * r + 1) :: (List.range' ((m + 2) * r + 2) m ++ [(m + 2) * r + 2 + m]) := by
    rw [show m + 2 = (m + 1) + 1 from rfl, List.range'_succ, List.range'_concat]
    simp [Nat.one_mul]
  have hmod1 : ((m + 2) * r + 1) % (m + 2) = 1 := by
    rw [show (m + 2) * r + 1 = 1 + (m + 2) * r from Nat.add_comm _ 1, Nat.add_mul_mod_self_left]
    exact Nat.mod_eq_of_lt (by omega)
  have hpieceA : insertPlaceholderPiece (m + 2) ((m + 2) * r + 1)
      = "(" ++ ("$" ++ Nat.repr ((m + 2) * r + 1)) := by
    unfold insertPlaceholderPiece
    rw [hmod1, if_neg (by omega), if_pos rfl]
    rw [show "($" = "(" ++ "$" from rfl, String.append_assoc]
  have hmodLast : ((m + 2) * r + 2 + m) % (m + 2) = 0 := by
    rw [show (m + 2) * r + 2 + m = (m + 2) * (r + 1) from by ring, Nat.mul_mod_right]
  have hpieceLast : insertPlaceholderPiece (m + 2) ((m + 2) * r + 2 + m)
      = ("$" ++ Nat.repr ((m + 2) * r + 2 + m)) ++ ")" := by
    unfold insertPlaceholderPiece
    rw [hmodLast, if_pos rfl]
  have hmid : ∀ j ∈ List.range' ((m + 2) * r + 2) m,
      insertPlaceholderPiece (m + 2) j = "$" ++ Nat.repr j := by
    intro j hj
    rw [List.mem_range'_1] at hj
    obtain ⟨t0, ht0⟩ := Nat.le.dest hj.1
    have ht0m : t0 < m := by
      have hlt := hj.2
      rw [← ht0] at hlt
      exact Nat.lt_of_add_lt_add_left hlt
    have h2 : j % (m + 2) = 2 + t0 := by
      rw [← ht0, show (m + 2) * r + 2 + t0 = (2 + t0) + (m + 2) * r from by ring,
        Nat.add_mul_mod_self_left]
      exact Nat.mod_eq_of_lt (by omega)
    unfold insertPlaceholderPiece
    rw [h2]
    rw [if_neg (show ¬(2 + t0 = 0) from by omega)]
    rw [if_neg (show ¬(2 + t0 = 1) from by omega)]
  rw [hsplit, List.map_cons, List.map_append, List.map_singleton, hpieceA, hpieceLast,
    List.map_congr_left hmid]
  rw [rustJoin_head_pre]
  rw [show ("$" ++ Nat.repr ((m + 2) * r + 1)) ::
        ((List.range' ((m + 2) * r + 2) m).map (fun j => "$" ++ Nat.repr j) ++
          [("$" ++ Nat.repr ((m + 2) * r + 2 + m)) ++ ")"])
      = (("$" ++ Nat.repr ((m + 2) * r + 1)) ::
          (List.range' ((m + 2) * r + 2) m).map (fun j => "$" ++ Nat.repr j)) ++
          [("$" ++ Nat.repr ((m + 2) * r + 2 + m)) ++ ")"] from rfl]
  rw [rustJoin_last_suf]
  have hlist : (("$" ++ Nat.repr ((m + 2) * r + 1)) ::
        (List.range' ((m + 2) * r + 2) m).map (fun j => "$" ++ Nat.repr j)) ++
        ["$" ++ Nat.repr ((m + 2) * r + 2 + m)]
      = (List.range (m + 2)).map (fun j => "$" ++ Nat.repr ((m + 2) * r + j + 1)) := by
    have hmap : ((List.range' ((m + 2) * r + 1) (m + 2)).map (fun j => "$" ++ Nat.repr j))
        = (List.range (m + 2)).map (fun j => "$" ++ Nat.repr ((m + 2) * r + j + 1)) := by
      rw [List.range'_eq_map_range, List.map_map]
      apply List.map_congr_left
      intro j _
      simp only [Function.comp]
      have harg : (m + 2) * r + 1 + j = (m + 2) * r + j + 1 := by ring
      rw [harg]
    rw [← hmap, hsplit]
    simp
  rw [hlist, String.append_assoc]

theorem insert_grouped (m R : Nat) :
    rustJoin ", " ((List.range' 1 ((m + 2) * R)).map (insertPlaceholderPiece (m + 2)))
      = groupedValuesText (m + 2) R := by
  induction R with
  | zero => simp [groupedValuesText, rustJoin]
  | succ R ih =>
    have hsplit : List.range' 1 ((m + 2) * (R + 1))
        = List.range' 1 ((m + 2) * R) ++ List.range' ((m + 2) * R + 1) (m + 2) := by
      have happ := List.range'_append 1 ((m + 2) * R) (m + 2) 1
      simp only [Nat.one_mul] at happ
      rw [show (1 : Nat) + (m + 2) * R = (m + 2) * R + 1 from Nat.add_comm 1 _] at happ
      rw [show (m + 2) * (R + 1) = m + 2 + (m + 2) * R from by ring]
      exact happ.symm
    rw [hsplit, List.map_append]
    rcases Nat.eq_zero_or_pos R with hR | hR
    · subst hR
      simp only [Nat.mul_zero, List.range'_zero, List.map_nil, List.nil_append]
      have hb := insert_block m 0
      simp only [Nat.mul_zero, Nat.zero_add] at hb
      rw [hb]
      unfold groupedValuesText
      simp only [List.range_succ, List.range_zero, List.nil_append, List.map_cons,
        List.map_nil, Nat.mul_zero, Nat.zero_add]
      rfl
    · have hA : (List.range' 1 ((m + 2) * R)).map (insertPlaceholderPiece (m + 2)) ≠ [] := by
        simp only [ne_eq, List.map_eq_nil_iff, List.range'_eq_nil]
        exact Nat.mul_ne_zero (by omega) (by omega)
      have hB : (List.range' ((m + 2) * R + 1) (m + 2)).map (insertPlaceholderPiece (m + 2))
          ≠ [] := by
        simp only [ne_eq, List.map_eq_nil_iff, List.range'_eq_nil]
        omega
      rw [rustJoin_append ", " _ _ hA hB, ih, insert_block m R]
      unfold groupedValuesText
      rw [show List.range (R + 1) = List.range R ++ [R] from List.range_succ R,
        List.map_append, List.map_singleton]
      have hA2 : (List.range R).map (fun r =>
          "(" ++ rustJoin ", " ((List.range (m + 2)).map
            (fun j => "$" ++ Nat.repr ((m + 2) * r + j + 1))) ++ ")") ≠ [] := by
        simp only [ne_eq, List.map_eq_nil_iff, List.range_eq_nil]
        omega
      rw [rustJoin_append ", "
        ((List.range R).map (fun r =>
          "(" ++ rustJoin ", " ((List.range (m + 2)).map
            (fun j => "$" ++ Nat.repr ((m + 2) * r + j + 1))) ++ ")"))
        ["(" ++ rustJoin ", " ((List.range (m + 2)).map
          (fun j => "$" ++ Nat.repr ((m + 2) * R + j + 1))) ++ ")"]
        hA2 (by simp)]
      rfl

end SqlBase

theorem rustJoin_cons_of_ne (sep x : String) (l : List String) (hl : l ≠ []) :
    rustJoin sep (x :: l) = (x ++ sep) ++ rustJoin sep l := by
  cases l with
  | nil => exact absurd rfl hl
  | cons y ys =>
    rw [rustJoin_cons_cons]
    simp [String.append_assoc]

theorem condLoop_ne_nil (p : Access.Condition × Access.LogicalOperator)
    (rest : List (Access.Condition × Access.LogicalOperator)) (k : Nat) :
    Access.condLoop (p :: rest) k ≠ [] := by
  obtain ⟨c, g⟩ := p
  cases g <;> simp [Access.condLoop]

theorem erase_value_text (c : Access.Condition) :
    c.generate_statement_text
      = (Access.Condition.mk c.is_joined_table_condition c.key c.operator "").generate_statement_text := rfl

theorem condLoop_congr : ∀ (l1 l2 : List Access.Condition)
    (lg : List Access.LogicalOperator) (k : Nat),
    l1.map (fun c => Access.Condition.mk c.is_joined_table_condition c.key c.operator "")
      = l2.map (fun c => Access.Condition.mk c.is_joined_table_condition c.key c.operator "") →
    Access.condLoop (l1.zip lg) k = Access.condLoop (l2.zip lg) k := by
  intro l1
  induction l1 with
  | nil =>
    intro l2 lg k h
    cases l2 with
    | nil => rfl
    | cons c2 t2 => simp at h
  | cons c1 t1 ih =>
    intro l2 lg k h
    cases l2 with
    | nil => simp at h
    | cons c2 t2 =>
      simp only [List.map_cons, List.cons.injEq] at h
      obtain ⟨hc, ht⟩ := h
      cases lg with
      | nil => rfl
      | cons g gt =>
        have hg : c1.generate_statement_text = c2.generate_statement_text := by
          rw [erase_value_text c1, erase_value_text c2, hc]
        have hrec := ih t2 gt (k + 1) ht
        simp only [List.zip] at hrec
        cases g <;> simp [Access.condLoop, hg, hrec]

/-- C1: the rendered parameterized SQL text of an access condition chain is
independent of the bound values: two chains that agree on logical markers and
on every condition's column, comparison operator and joined-table qualifier
(equal after erasing every value string) render character-for-character
identical text; the values appear only in the ordered flat value list, whose
i-th element belongs to condition i, rendered with placeholder number
`s + i + 1` when the statement text starts at index `s`. -/
theorem C1_condition_text_value_independent (c c' : Access.Conditions) (s : Nat)
    (hlog : c.logics = c'.logics)
    (hcond : c.conditions.map
        (fun x => Access.Condition.mk x.is_joined_table_condition x.key x.operator "")
      = c'.conditions.map
        (fun x => Access.Condition.mk x.is_joined_table_condition x.key x.operator "")) :
    c.generate_statement_text s = c'.generate_statement_text s
    ∧ c.get_flat_values = c.conditions.map (fun cond => cond.value)
    ∧ ((∀ p ∈ c.conditions.zip c.logics, p.1.clean = true) →
        placeholders (c.generate_statement_text s)
          = (List.range' (s + 1) (c.conditions.zip c.logics).length).map Nat.repr) := by
  refine ⟨?_, rfl, fun h => Access.conditions_placeholders c s h⟩
  unfold Access.Conditions.generate_statement_text
  rw [← hlog]
  have hlen : c.conditions.length = c'.conditions.length := by
    simpa using congrArg List.length hcond
  have hloop := condLoop_congr c.conditions c'.conditions c.logics (s + 1) hcond
  have hzipeq_len : (c.conditions.zip c.logics).length
      = (c'.conditions.zip c.logics).length := by
    simp [List.length_zip, hlen]
  cases hz : c.conditions.zip c.logics with
  | nil =>
    have hz2 : c'.conditions.zip c.logics = [] := by
      rw [hz] at hzipeq_len
      exact List.eq_nil_of_length_eq_zero hzipeq_len.symm
    rw [hz2]
  | cons p r =>
    cases hz' : c'.conditions.zip c.logics with
    | nil =>
      exfalso
      rw [hz'] at hzipeq_len
      rw [hz] at hzipeq_len
      simp at hzipeq_len
    | cons p' r' =>
      rw [hz] at hloop
      rw [hz'] at hloop
      simp [hloop]

/-- Witness for C1 at two concrete two-condition chains differing only in the
bound values (18/Alice versus 99/Bob). -/
theorem C1_witness :
    (Access.Conditions.mk
        [Access.LogicalOperator.FirstCondition, Access.LogicalOperator.And]
        [Access.Condition.mk Access.IsInJoinedTable.No "age"
            Access.ComparisonOperator.GraterEq "18",
         Access.Condition.mk Access.IsInJoinedTable.No "name"
            Access.ComparisonOperator.Equal "Alice"]).generate_statement_text 0
      = (Access.Conditions.mk
        [Access.LogicalOperator.FirstCondition, Access.LogicalOperator.And]
        [Access.Condition.mk Access.IsInJoinedTable.No "age"
            Access.ComparisonOperator.GraterEq "99",
         Access.Condition.mk Access.IsInJoinedTable.No "name"
            Access.ComparisonOperator.Equal "Bob"]).generate_statement_text 0
    ∧ placeholders ((Access.Conditions.mk
        [Access.LogicalOperator.FirstCondition, Access.LogicalOperator.And]
        [Access.Condition.mk Access.IsInJoinedTable.No "age"
            Access.ComparisonOperator.GraterEq "18",
         Access.Condition.mk Access.IsInJoinedTable.No "name"
            Access.ComparisonOperator.Equal "Alice"]).generate_statement_text 0)
      = (List.range' 1 2).map Nat.repr :=
  ⟨(C1_condition_text_value_independent _ _ 0 rfl rfl).1,
   (C1_condition_text_value_independent _ _ 0 rfl rfl).2.2 (by decide)⟩

/-- C2: in a generated SELECT statement with `W` WHERE predicates and `H`
HAVING predicates (query generator started at placeholder 1, conditions and
bind methods aligned, identifiers dollar-free), the emitted placeholder
numbers are exactly `$1..$W` in the WHERE clause in predicate order, then
`$ (W+1)..$ (W+H)` in the HAVING clause, and the whole statement's
placeholders are exactly `$1..$ (W+H)` — no gaps, no repeats — although the
join clause is rendered in between with the same counter value. -/
theorem C2_placeholder_numbering (q : Gen.QueryGenerator)
    (hstart : q.placeholder_start_num = 1)
    (hlen : q.conditions.bind_methods.length = q.conditions.conditions.length)
    (hclean : q.clean = true) :
    placeholders (q.conditions.get_total_statement 1)
      = (List.range' 1 q.conditions.len).map Nat.repr
    ∧ placeholders (Gen.GroupConditions.get_total_statement q.group_conditions
        (1 + q.conditions.len))
      = (List.range' (1 + q.conditions.len) q.group_conditions.length).map Nat.repr
    ∧ placeholders q.get_statement
      = (List.range' 1 (q.conditions.len + q.group_conditions.length)).map Nat.repr := by
  have hc := hclean
  simp only [Gen.QueryGenerator.clean, Bool.and_eq_true] at hc
  obtain ⟨⟨⟨⟨⟨⟨hbase, hqc⟩, hjoins⟩, hconds⟩, hgroup⟩, hgconds⟩, hsorts⟩ := hc
  rw [List.all_eq_true] at hconds hgconds
  have hzip : ∀ p ∈ q.conditions.conditions.zip q.conditions.bind_methods,
      p.1.clean = true := fun p hp => hconds p.1 (List.of_mem_zip hp).1
  have hziplen : (q.conditions.conditions.zip q.conditions.bind_methods).length
      = q.conditions.len := by
    simp [List.length_zip, hlen, Gen.Conditions.len]
  refine ⟨?_, ?_, ?_⟩
  · apply placeholders_of_extract
    rw [Gen.gen_where_extract q.conditions 1 hzip, hziplen]
  · apply placeholders_of_extract
    rw [Gen.gen_having_extract q.group_conditions (1 + q.conditions.len) hgconds]
  · apply placeholders_of_extract
    exact Gen.query_statement_extract q hstart hlen hclean

/-- Witness for C2: a concrete generator over table `t` with two WHERE
conditions and one HAVING condition; placeholders are `$1,$2` then `$3`. -/
theorem C2_witness :
    placeholders (Gen.QueryGenerator.get_statement
      { base_table := Gen.Table.NonSchema "t",
        main_query_columns := Gen.QueryColumns.AllColumns (Gen.Table.NonSchema "t"),
        join_tables := [],
        conditions :=
          { conditions :=
              [Gen.Condition.OnMainTable "a" (Gen.Variable.Int 1)
                 Gen.ConditionOperator.Equal Gen.BindMethod.FirstCondition,
               Gen.Condition.OnMainTable "b" (Gen.Variable.Int 2)
                 Gen.ConditionOperator.Greater Gen.BindMethod.And],
            bind_methods := [Gen.BindMethod.FirstCondition, Gen.BindMethod.And] },
        groupings := [Gen.Column.mk (Gen.Table.NonSchema "t") "a"],
        group_conditions :=
          [Gen.GroupCondition.mk
            (Gen.Aggregation.Count (Gen.Column.mk (Gen.Table.NonSchema "t") "a"))
            (Gen.ReferenceValue.Variable (Gen.Variable.Int 3))
            Gen.ConditionOperator.GreaterEq],
        sort_rules := [],
        placeholder_start_num := 1 })
      = (List.range' 1 (2 + 1)).map Nat.repr :=
  (C2_placeholder_numbering _ rfl rfl (by decide)).2.2

/-- C3: for an UPDATE with `N` SET assignments and a non-empty condition
chain, the assembled statement is the SET clause (placeholders `$1..$N` in
assignment order) followed by the condition clause whose placeholders start
at `$ (N+1)` (the renderer is seeded with `get_num_values`), and the
parameter list is the SET values in order followed by the condition values
in order. -/
theorem C3_update_statement (t : String) (us : SqlBase.UpdateSets)
    (cs : Access.Conditions)
    (hne : cs.is_empty = false)
    (hlen : cs.logics.length = cs.conditions.length)
    (ht : NoDollar t = true)
    (hcols : ∀ u ∈ us.update_sets, NoDollar u.column = true)
    (hcs : ∀ p ∈ cs.conditions.zip cs.logics, p.1.clean = true) :
    Postgres.update_condition t us cs
      = (us.build_sql t ++ " " ++ cs.generate_statement_text us.get_num_values,
         us.get_flat_values ++ cs.get_flat_values)
    ∧ placeholders (us.build_sql t) = (List.range' 1 us.get_num_values).map Nat.repr
    ∧ placeholders (cs.generate_statement_text us.get_num_values)
      = (List.range' (us.get_num_values + 1) cs.conditions.length).map Nat.repr := by
  refine ⟨?_, ?_, ?_⟩
  · unfold Postgres.update_condition
    rw [hne]
    simp [rustJoin, SqlBase.SqlType.sql_build]
  · apply placeholders_of_extract
    exact SqlBase.update_build_extract us t ht hcols
  · have hziplen : (cs.conditions.zip cs.logics).length = cs.conditions.length := by
      simp [List.length_zip, hlen]
    rw [Access.conditions_placeholders cs us.get_num_values hcs, hziplen]

/-- Witness for C3: two SET assignments and one condition over table `t`:
SET placeholders `$1,$2`, condition placeholder `$3`, parameters in SET-then-
condition order. -/
theorem C3_witness :
    Postgres.update_condition "t"
        (SqlBase.UpdateSets.mk [SqlBase.UpdateSet.mk "a" "1", SqlBase.UpdateSet.mk "b" "2"])
        (Access.Conditions.mk [Access.LogicalOperator.FirstCondition]
          [Access.Condition.mk Access.IsInJoinedTable.No "id"
            Access.ComparisonOperator.Equal "7"])
      = ((SqlBase.UpdateSets.mk
            [SqlBase.UpdateSet.mk "a" "1", SqlBase.UpdateSet.mk "b" "2"]).build_sql "t"
          ++ " " ++
          (Access.Conditions.mk [Access.LogicalOperator.FirstCondition]
            [Access.Condition.mk Access.IsInJoinedTable.No "id"
              Access.ComparisonOperator.Equal "7"]).generate_statement_text 2,
         ["1", "2"] ++ ["7"])
    ∧ placeholders ((SqlBase.UpdateSets.mk
          [SqlBase.UpdateSet.mk "a" "1", SqlBase.UpdateSet.mk "b" "2"]).build_sql "t")
      = (List.range' 1 2).map Nat.repr
    ∧ placeholders ((Access.Conditions.mk [Access.LogicalOperator.FirstCondition]
          [Access.Condition.mk Access.IsInJoinedTable.No "id"
            Access.ComparisonOperator.Equal "7"]).generate_statement_text 2)
      = (List.range' 3 1).map Nat.repr :=
  C3_update_statement "t" _ _ rfl rfl (by decide) (by decide) (by decide)

/-- C4 counterexample: as written, the claim requires inferring
`"2024-13-40"` to yield an UnsupportedFormat-class error, but `str_to_value`
falls through every numeric, temporal and boolean parser and returns the
plain `Text` parameter — no error. -/
theorem C4_counterexample :
    Converter.str_to_value "2024-13-40"
      = Except.ok (Converter.Param.Text "2024-13-40") := rfl

/-- C4 (amended): inferring `"42"` yields `Int 42`; `"42i64"` yields
`BigInt 42`; `"99999999999i16"` yields an overflow error naming `i16`; and
`"2024-13-40"` yields `Text "2024-13-40"` — a malformed date falls through
to `Text`, the unsupported-format error being reserved for the unsupported
numeric type suffixes (`f16`, `isize`, `fsize`, `u16`, `u32`, `u64`,
`usize`). -/
theorem C4_inference_examples :
    Converter.str_to_value "42" = Except.ok (Converter.Param.Int 42)
    ∧ Converter.str_to_value "42i64" = Except.ok (Converter.Param.BigInt 42)
    ∧ Converter.str_to_value "99999999999i16"
      = Except.error (Converter.DataParseError.ParseIntError
          "'99999999999' can not convert to i16(smallint) because overflow the range.")
    ∧ Converter.str_to_value "2024-13-40"
      = Except.ok (Converter.Param.Text "2024-13-40") :=
  ⟨rfl, rfl, rfl, rfl⟩

/-- C5 (code evaluation at the failing input): appending a condition that is
explicitly bound with `FirstCondition` to an empty generator chain succeeds
but pushes only the condition, not the bind method, so the two lists end up
with lengths 1 and 0 — contradicting the claimed 1:1 pairing invariant.
(The sibling `access` chain builder and the generator's own zip-based
renderer both assume equal lengths.) -/
theorem C5_generator_marker_desync :
    (Gen.Conditions.new.add_condition
      (Gen.Condition.OnMainTable "col" (Gen.Variable.Int 1)
        Gen.ConditionOperator.Equal Gen.BindMethod.FirstCondition)).1 = none
    ∧ ((Gen.Conditions.new.add_condition
        (Gen.Condition.OnMainTable "col" (Gen.Variable.Int 1)
          Gen.ConditionOperator.Equal Gen.BindMethod.FirstCondition)).2.conditions.length = 1
      ∧ (Gen.Conditions.new.add_condition
          (Gen.Condition.OnMainTable "col" (Gen.Variable.Int 1)
            Gen.ConditionOperator.Equal Gen.BindMethod.FirstCondition)).2.bind_methods.length
        = 0) :=
  ⟨rfl, rfl, rfl⟩

/-- C6: identifier validation succeeds exactly when every character is a
letter, a digit or an underscore (inputs restricted to ASCII, where the model
of Rust's Unicode-aware `char::is_alphanumeric` is exact), both for the raw
validator and for `validate_string`; and `QueryColumns::add_column` accepts
its three identifiers exactly when each passes that validation. -/
theorem C6_validator_characterization (s p : String)
    (hascii : ∀ c ∈ s.data, c.toNat < 128) :
    (validate_string s p Access.ConditionError.InputInvalidError = Except.ok () ↔
      ∀ c ∈ s.data, (c.isAlpha = true ∨ c.isDigit = true ∨ c = '_'))
    ∧ (validate_alphanumeric_name s "_" = true ↔
      ∀ c ∈ s.data, (c.isAlpha = true ∨ c.isDigit = true ∨ c = '_'))
    ∧ (∀ (qc : SqlBase.QueryColumns) (sch tbl col : String),
        qc.all_columns = false →
        ((qc.add_column sch tbl col).1 = none ↔
          (validate_alphanumeric_name sch "_" = true
            ∧ validate_alphanumeric_name tbl "_" = true
            ∧ validate_alphanumeric_name col "_" = true))) := by
  have hval : validate_alphanumeric_name s "_" = true ↔
      ∀ c ∈ s.data, (c.isAlpha = true ∨ c.isDigit = true ∨ c = '_') := by
    unfold validate_alphanumeric_name rust_is_alphanumeric
    rw [List.all_eq_true]
    constructor
    · intro h c hc
      have := h c hc
      simp at this
      rcases this with h1 | h1
      · rcases h1 with h2 | h2
        · exact Or.inl h2
        · exact Or.inr (Or.inl h2)
      · right; right
        simpa using h1
    · intro h c hc
      rcases h c hc with h1 | h1 | h1 <;> simp [h1]
  refine ⟨?_, hval, ?_⟩
  · unfold validate_string
    constructor
    · intro h
      by_cases hv : validate_alphanumeric_name s "_" = true
      · exact hval.mp hv
      · exfalso
        simp [hv] at h
    · intro h
      rw [if_neg (by simp [hval.mpr h])]
  · intro qc sch tbl col hflag
    unfold SqlBase.QueryColumns.add_column
    rw [if_neg (by simp [hflag])]
    unfold validate_string
    by_cases h1 : validate_alphanumeric_name sch "_" = true
    · rw [if_neg (by simp [h1])]
      by_cases h2 : validate_alphanumeric_name tbl "_" = true
      · rw [if_neg (by simp [h2])]
        by_cases h3 : validate_alphanumeric_name col "_" = true
        · rw [if_neg (by simp [h3])]
          simp [h1, h2, h3]
        · rw [if_pos (by simp [Bool.eq_false_iff.mpr h3])]
          simp [h3]
      · rw [if_pos (by simp [Bool.eq_false_iff.mpr h2])]
        simp [h2]
    · rw [if_pos (by simp [Bool.eq_false_iff.mpr h1])]
      simp [h1]

/-- Witness for C6 at `s = "user_1;"`: validation rejects the semicolon, and
it accepts the same string with the semicolon removed; a column set accepts
`("", "t", "c")`. -/
theorem C6_witness :
    (validate_string "user_1" "column" Access.ConditionError.InputInvalidError = Except.ok () ↔
      ∀ c ∈ "user_1".data, (c.isAlpha = true ∨ c.isDigit = true ∨ c = '_'))
    ∧ ((SqlBase.QueryColumns.new false).add_column "" "t" "c").1 = none :=
  ⟨(C6_validator_characterization "user_1" "column" (by decide)).1,
   ((C6_validator_characterization "user_1" "column" (by decide)).2.2
      (SqlBase.QueryColumns.new false) "" "t" "c" rfl).mpr (by decide)⟩

/-- C7: a DELETE on an empty condition chain, and an UPDATE without the
explicit allow-all-rows flag, are both refused with `UnsafeExecutionError`
carrying the source's exact message; the DELETE refusal returns no statement
pair at all, so no SQL text is produced. -/
theorem C7_unsafe_refusals (t : String) (cs : Access.Conditions)
    (hempty : cs.is_empty = true) :
    Postgres.delete t cs
      = Except.error (Postgres.PostgresBaseError.UnsafeExecutionError
          "'delete' method unsupported deleting records without any condition.")
    ∧ ∀ (us : SqlBase.UpdateSets),
        Postgres.update t us false
          = Except.error (Postgres.PostgresBaseError.UnsafeExecutionError
              "'update' method will update all records in the specified table so please consider to use 'update_condition' instead of this.") := by
  refine ⟨?_, fun us => rfl⟩
  unfold Postgres.delete
  rw [if_pos hempty]

/-- Witness for C7 at the fresh condition chain and an empty update set. -/
theorem C7_witness :
    Postgres.delete "users" Access.Conditions.new
      = Except.error (Postgres.PostgresBaseError.UnsafeExecutionError
          "'delete' method unsupported deleting records without any condition.")
    ∧ Postgres.update "users" (SqlBase.UpdateSets.mk []) false
      = Except.error (Postgres.PostgresBaseError.UnsafeExecutionError
          "'update' method will update all records in the specified table so please consider to use 'update_condition' instead of this.") :=
  ⟨(C7_unsafe_refusals "users" Access.Conditions.new rfl).1,
   (C7_unsafe_refusals "users" Access.Conditions.new rfl).2 (SqlBase.UpdateSets.mk [])⟩

/-- C8: a DELETE over a non-empty condition chain assembles
`DELETE FROM <table> WHERE <conditions>` — in particular `FROM` stands
between `DELETE` and the table name — with the chain's flat values as the
parameter list. -/
theorem C8_delete_skeleton (t : String) (cs : Access.Conditions)
    (hne : cs.is_empty = false) (hlen : cs.logics.length = cs.conditions.length) :
    ∃ rest : String,
      Postgres.delete t cs
        = Except.ok ("DELETE FROM " ++ t ++ " WHERE" ++ rest, cs.get_flat_values) := by
  obtain ⟨lg, cond⟩ := cs
  cases cond with
  | nil => simp [Access.Conditions.is_empty] at hne
  | cons c cond' =>
    cases lg with
    | nil => simp at hlen
    | cons g lg' =>
      refine ⟨" " ++ rustJoin " " (Access.condLoop ((c, g) :: cond'.zip lg') 1), ?_⟩
      unfold Postgres.delete
      rw [if_neg (by simp [Access.Conditions.is_empty])]
      unfold Access.Conditions.generate_statement_text
      simp only [List.zip_cons_cons]
      rw [SqlBase.SqlType.sql_build, rustJoin_cons_cons,
        rustJoin_cons_of_ne " " "WHERE" _ (condLoop_ne_nil (c, g) (cond'.zip lg') (0 + 1))]
      have h2 : ∀ y : String,
          (" " : String) ++ ("WHERE " ++ y) = " WHERE" ++ (" " ++ y) := by
        intro y
        rw [← String.append_assoc, ← String.append_assoc]
        rfl
      simp [rustJoin, String.append_assoc, h2]

/-- Witness for C8: one condition `age =` on table `users` renders
`DELETE FROM users WHERE age = $1`. -/
theorem C8_witness :
    ∃ rest : String,
      Postgres.delete "users"
        (Access.Conditions.mk [Access.LogicalOperator.FirstCondition]
          [Access.Condition.mk Access.IsInJoinedTable.No "age"
            Access.ComparisonOperator.Equal "30"])
        = Except.ok ("DELETE FROM " ++ "users" ++ " WHERE" ++ rest,
            (Access.Conditions.mk [Access.LogicalOperator.FirstCondition]
              [Access.Condition.mk Access.IsInJoinedTable.No "age"
                Access.ComparisonOperator.Equal "30"]).get_flat_values) :=
  C8_delete_skeleton "users"
    (Access.Conditions.mk [Access.LogicalOperator.FirstCondition]
      [Access.Condition.mk Access.IsInJoinedTable.No "age"
        Access.ComparisonOperator.Equal "30"]) rfl rfl

/-- C9: the claim fails at column arity 1 — with `keys = ["k"]` and one
record the code renders `INSERT INTO t (k) VALUES $1)`, dropping the opening
parenthesis of the tuple (every placeholder index is `≡ 0 mod 1`, so the
`(` branch of the piece builder is unreachable).  For every arity `C ≥ 2`
the claimed shape does hold: the statement carries exactly `C*R` placeholders
`$1..$(C*R)` and the VALUES list is `groupedValuesText C R`, i.e. `R`
parenthesized row-major tuples of `C` placeholders; and an appended record
is accepted iff its length equals the arity, a mismatch being rejected with
the typed inconsistency error and the batch left unchanged. -/
theorem C9_insert_batch_shape :
    ((SqlBase.InsertRecords.mk ["k"] [SqlBase.InsertRecord.mk ["v"]]).build_sql "t"
        = "INSERT INTO t (k) VALUES $1)"
      ∧ (SqlBase.InsertRecords.mk ["k"] [SqlBase.InsertRecord.mk ["v"]]).build_sql "t"
        ≠ "INSERT INTO t (k) VALUES ($1)")
    ∧ (∀ (ir : SqlBase.InsertRecords) (t : String) (m : Nat),
        ir.keys.length = m + 2 → NoDollar t = true →
        (∀ k ∈ ir.keys, NoDollar k = true) →
        placeholders (ir.build_sql t)
          = (List.range' 1 (ir.keys.length * ir.insert_records.length)).map Nat.repr
        ∧ ir.build_sql t
          = "INSERT INTO" ++ " " ++ t ++ " "
            ++ ("(" ++ rustJoin ", " ir.keys ++ ") VALUES "
              ++ SqlBase.groupedValuesText ir.keys.length ir.insert_records.length))
    ∧ (∀ (ir : SqlBase.InsertRecords) (values : List String),
        SqlBase.validateKeys ir.keys = none →
        (values.length ≠ ir.keys.length →
          ir.add_value values
            = (some (SqlBase.InsertValueError.InputInconsistentError
                "'values' should match with the 'columns' number. Please input data."), ir))
        ∧ (values.length = ir.keys.length →
          ir.add_value values
            = (none, SqlBase.InsertRecords.mk ir.keys
                (ir.insert_records ++ [SqlBase.InsertRecord.mk values])))) := by
  refine ⟨⟨rfl, by decide⟩, ?_, ?_⟩
  · intro ir t m hm ht hkeys
    refine ⟨placeholders_of_extract _ _ (SqlBase.insert_build_extract ir t ht hkeys), ?_⟩
    simp only [SqlBase.InsertRecords.build_sql]
    rw [hm, SqlBase.insert_grouped m ir.insert_records.length]
    simp [rustJoin, String.append_assoc]
  · intro ir values hvk
    constructor
    · intro hne
      unfold SqlBase.InsertRecords.add_value
      rw [hvk]
      rw [if_pos hne]
    · intro heq
      unfold SqlBase.InsertRecords.add_value
      rw [hvk]
      rw [if_neg (by simp [heq])]

/-- Witness for C9 at arity 2 with 3 records: the statement renders the
grouped VALUES list and carries exactly the placeholders `$1..$6`. -/
theorem C9_witness :
    (SqlBase.InsertRecords.mk ["a", "b"]
        [SqlBase.InsertRecord.mk ["1", "2"], SqlBase.InsertRecord.mk ["3", "4"],
         SqlBase.InsertRecord.mk ["5", "6"]]).build_sql "t"
      = "INSERT INTO" ++ " " ++ "t" ++ " "
        ++ ("(" ++ rustJoin ", " ["a", "b"] ++ ") VALUES "
          ++ SqlBase.groupedValuesText 2 3)
    ∧ placeholders ((SqlBase.InsertRecords.mk ["a", "b"]
        [SqlBase.InsertRecord.mk ["1", "2"], SqlBase.InsertRecord.mk ["3", "4"],
         SqlBase.InsertRecord.mk ["5", "6"]]).build_sql "t")
      = (List.range' 1 6).map Nat.repr :=
  ⟨(C9_insert_batch_shape.2.1 (SqlBase.InsertRecords.mk ["a", "b"]
      [SqlBase.InsertRecord.mk ["1", "2"], SqlBase.InsertRecord.mk ["3", "4"],
       SqlBase.InsertRecord.mk ["5", "6"]]) "t" 0 rfl (by decide) (by decide)).2,
   (C9_insert_batch_shape.2.1 (SqlBase.InsertRecords.mk ["a", "b"]
      [SqlBase.InsertRecord.mk ["1", "2"], SqlBase.InsertRecord.mk ["3", "4"],
       SqlBase.InsertRecord.mk ["5", "6"]]) "t" 0 rfl (by decide) (by decide)).1⟩

/-- C10: every embedded append is atomic on error — whenever
`add_condition`, `add_column`, `add_set` or `add_value` returns an error,
the returned state is exactly the pre-call state. -/
theorem C10_append_atomic :
    (∀ (cs : Access.Conditions) (col v : String) (cmp : Access.ComparisonOperator)
        (ch : Access.LogicalOperator) (jt : Access.IsInJoinedTable),
      (cs.add_condition col v cmp ch jt).1.isSome = true →
      (cs.add_condition col v cmp ch jt).2 = cs)
    ∧ (∀ (qc : SqlBase.QueryColumns) (sch tbl col : String),
        (qc.add_column sch tbl col).1.isSome = true →
        (qc.add_column sch tbl col).2 = qc)
    ∧ (∀ (us : SqlBase.UpdateSets) (col v : String),
        (us.add_set col v).1.isSome = true →
        (us.add_set col v).2 = us)
    ∧ (∀ (ir : SqlBase.InsertRecords) (values : List String),
        (ir.add_value values).1.isSome = true →
        (ir.add_value values).2 = ir) := by
  refine ⟨?_, ?_, ?_, ?_⟩
  · intro cs col v cmp ch jt h
    unfold Access.Conditions.add_condition at h ⊢
    cases hv : validate_string col "column" Access.ConditionError.InputInvalidError with
    | error e => simp [hv]
    | ok u =>
      simp only [hv] at h ⊢
      by_cases hfc : ch = Access.LogicalOperator.FirstCondition ∧ cs.conditions.isEmpty = false
      · rw [if_pos hfc]
      · rw [if_neg hfc] at h ⊢
        cases jt with
        | No => simp at h
        | Yes sch tbl =>
          by_cases hbad : sch.isEmpty = false ∧ tbl.isEmpty = true
          · simp only [if_pos hbad]
          · simp [if_neg hbad] at h
  · intro qc sch tbl col h
    unfold SqlBase.QueryColumns.add_column at h ⊢
    by_cases hall : qc.all_columns = true
    · rw [if_pos hall]
    · rw [if_neg hall] at h ⊢
      cases h1 : validate_string sch "schema_name" SqlBase.QueryColumnError.InputInvalidError with
      | error e => simp [h1]
      | ok u1 =>
        simp only [h1] at h ⊢
        cases h2 : validate_string tbl "table_name" SqlBase.QueryColumnError.InputInvalidError with
        | error e => simp [h2]
        | ok u2 =>
          simp only [h2] at h ⊢
          cases h3 : validate_string col "column_name" SqlBase.QueryColumnError.InputInvalidError with
          | error e => simp [h3]
          | ok u3 => simp [h3] at h
  · intro us col v h
    unfold SqlBase.UpdateSets.add_set at h ⊢
    cases hv : validate_string col "column" SqlBase.UpdateSetError.InputInvalidError with
    | error e => simp [hv]
    | ok u => simp [hv] at h
  · intro ir values h
    unfold SqlBase.InsertRecords.add_value at h ⊢
    cases hv : SqlBase.validateKeys ir.keys with
    | some e => simp [hv]
    | none =>
      simp only [hv] at h ⊢
      by_cases hlen : values.length ≠ ir.keys.length
      · rw [if_pos hlen]
      · rw [if_neg hlen] at h
        simp at h

/-- Witness for C10: each of the four appends at a concrete erroring input
(invalid column character, all-columns flag set, space in a SET column,
arity mismatch) leaves the builder unchanged. -/
theorem C10_witness :
    (Access.Conditions.new.add_condition "bad;col" "1" Access.ComparisonOperator.Equal
        Access.LogicalOperator.FirstCondition Access.IsInJoinedTable.No).2
      = Access.Conditions.new
    ∧ ((SqlBase.QueryColumns.new true).add_column "" "t" "c").2 = SqlBase.QueryColumns.new true
    ∧ ((SqlBase.UpdateSets.mk []).add_set "bad col" "v").2 = SqlBase.UpdateSets.mk []
    ∧ ((SqlBase.InsertRecords.new ["a", "b"]).add_value ["x"]).2
      = SqlBase.InsertRecords.new ["a", "b"] :=
  ⟨C10_append_atomic.1 _ "bad;col" "1" _ _ _ (by decide),
   C10_append_atomic.2.1 _ "" "t" "c" (by decide),
   C10_append_atomic.2.2.1 _ "bad col" "v" (by decide),
   C10_append_atomic.2.2.2 _ ["x"] (by decide)⟩
